import Mathlib

/-!
Verification of the DAST aggregation and reporting scripts: a shallow
embedding of the finding normalizer (`risk-evaluator.py`), the tuning
helper (`tuning-helper.py`), the report generator
(`report-generator.py`), the policy-client response handling
(`opa_utils.py`) and the regression guard (`regression-guard.py`),
together with theorems about grouping, ranking, deduplication,
error handling and report totality.

Machine integers do not occur (all counts are unbounded Python ints);
counts are modelled as `Nat` and risk scores as `Int`.  Fallible code
returns `Except PyErr`.  Python dicts that are used in insertion order
are modelled as association lists built by left folds; Python's stable
`sorted(..., reverse=True)` is modelled by a stable insertion sort whose
characterising properties (permutation, descending order, per-key
subsequence preservation) are proved below.
-/

set_option maxHeartbeats 1000000

namespace SecurityDast

/-! ## Python string semantics -/

/-- ASCII whitespace recognised by Python `str.strip()` / `str.split()`
with no arguments: space, tab, newline, carriage return, form feed and
vertical tab. -/
def pyIsSpace (c : Char) : Bool :=
  c = ' ' || c = '\t' || c = '\n' || c = '\r' || c = '\x0c' || c = '\x0b'

/-- Python `str.upper()` (character-wise upper-casing; the severities in
scanner reports are ASCII). -/
def pyUpper (s : String) : String :=
  ⟨s.data.map Char.toUpper⟩

/-- Python `str.strip()`: drop leading and trailing whitespace. -/
def pyStrip (s : String) : String :=
  ⟨((s.data.dropWhile pyIsSpace).reverse.dropWhile pyIsSpace).reverse⟩

/-- Helper for `pySplit`: walk the characters, accumulating the current
token in reverse. -/
def pySplitAux : List Char → List Char → List String
  | [], cur => if cur.isEmpty then [] else [⟨cur.reverse⟩]
  | c :: rest, cur =>
    if pyIsSpace c then
      if cur.isEmpty then pySplitAux rest []
      else String.mk cur.reverse :: pySplitAux rest []
    else pySplitAux rest (c :: cur)

/-- Python `str.split()` with no argument: split on runs of whitespace,
producing no empty tokens (so the result is `[]` exactly when the string
is empty or all whitespace). -/
def pySplit (s : String) : List String :=
  pySplitAux s.data []

/-- One step of Python `dict.fromkeys` insertion: keep the accumulator if
the element was already seen, otherwise append it. -/
def pyDedupStep [DecidableEq α] (acc : List α) (x : α) : List α :=
  if x ∈ acc then acc else acc ++ [x]

/-- Python `list(dict.fromkeys(l))`: deduplicate keeping the first
occurrence of each element, preserving first-seen order. -/
def pyDedup [DecidableEq α] (l : List α) : List α :=
  l.foldl pyDedupStep []

/-- Python `a or b` where `a` is an optional string (`None` when the dict
key is absent) and the result must be a string: `None` and the empty
string are falsy and fall through to `b`. -/
def pyOrStr (a : Option String) (b : String) : String :=
  match a with
  | some s => if s = "" then b else s
  | none => b

/-- Python `a or b` where both operands are optional strings; the second
operand is returned as-is (even if falsy) when the first is falsy. -/
def pyOrOpt (a b : Option String) : Option String :=
  match a with
  | some s => if s = "" then b else some s
  | none => b

/-- Truthiness of an optional string: `None` and `""` are falsy. -/
def truthyO (a : Option String) : Bool :=
  match a with
  | some s => s ≠ ""
  | none => false

/-- Right-fold concatenation of string fragments; `joinStr (a :: l) = a ++ joinStr l`
definitionally, which the section-header containment lemma exploits. -/
def joinStr (l : List String) : String :=
  l.foldr (· ++ ·) ""

/-! ## JSON values and `json.loads`

The scripts read reports with Python's `json` module.  `JVal` is the
JSON value domain (numbers are kept as their lexemes: no script inspects
a numeric report field).  `json_loads` is a recursive-descent parser;
the only fact about it the theorems rely on is that the empty (or
all-whitespace) payload is not valid JSON, mirroring `json.load` raising
`JSONDecodeError` on an empty file, but it genuinely parses the JSON
fragments used in concrete witnesses. -/

inductive JVal where
  | null
  | bool (b : Bool)
  | num (lexeme : String)
  | str (s : String)
  | arr (items : List JVal)
  | obj (fields : List (String × JVal))

/-- Drop leading JSON whitespace. -/
def skipWs : List Char → List Char
  | [] => []
  | c :: cs => if pyIsSpace c then skipWs cs else c :: cs

/-- Whether a character is a hexadecimal digit. -/
def isHexDig (c : Char) : Bool :=
  c.isDigit || ('a' ≤ c && c ≤ 'f') || ('A' ≤ c && c ≤ 'F')

/-- Parse the body of a JSON string literal (after the opening quote),
returning the decoded characters and the rest of the input. -/
def parseJStrBody : List Char → Option (List Char × List Char)
  | [] => none
  | '"' :: rest => some ([], rest)
  | '\\' :: 'u' :: h1 :: h2 :: h3 :: h4 :: rest =>
    match isHexDig h1 && isHexDig h2 && isHexDig h3 && isHexDig h4 with
    | false => none
    | true =>
      let n := [h1, h2, h3, h4].foldl (fun a c =>
        16 * a + (if c.isDigit then c.toNat - '0'.toNat
                  else if 'a' ≤ c then c.toNat - 'a'.toNat + 10
                  else c.toNat - 'A'.toNat + 10)) 0
      match parseJStrBody rest with
      | some (body, rem) => some (Char.ofNat n :: body, rem)
      | none => none
  | '\\' :: e :: rest =>
    let dec : Option Char :=
      if e = '"' then some '"'
      else if e = '\\' then some '\\'
      else if e = '/' then some '/'
      else if e = 'b' then some '\x08'
      else if e = 'f' then some '\x0c'
      else if e = 'n' then some '\n'
      else if e = 'r' then some '\r'
      else if e = 't' then some '\t'
      else none
    match dec with
    | none => none
    | some c =>
      match parseJStrBody rest with
      | some (body, rem) => some (c :: body, rem)
      | none => none
  | c :: rest =>
    match parseJStrBody rest with
    | some (body, rem) => some (c :: body, rem)
    | none => none

/-- Lex a JSON number (sign, integer part, optional fraction and
exponent), returning its lexeme and the rest of the input. -/
def lexJNum (cs : List Char) : Option (String × List Char) :=
  let (sign, cs1) :=
    match cs with
    | '-' :: rest => (['-'], rest)
    | _ => (([] : List Char), cs)
  let intPart := cs1.takeWhile Char.isDigit
  let cs2 := cs1.dropWhile Char.isDigit
  if intPart.isEmpty then none
  else if intPart.length > 1 && intPart.headD '0' = '0' then none
  else
    let (fracPart, cs3) :=
      match cs2 with
      | '.' :: rest =>
        let ds := rest.takeWhile Char.isDigit
        if ds.isEmpty then (none, cs2)
        else (some ('.' :: ds), rest.dropWhile Char.isDigit)
      | _ => (none, cs2)
    match fracPart, cs2 with
    | none, '.' :: _ => none
    | _, _ =>
      let (expPart, cs4) :=
        match cs3 with
        | e :: rest =>
          if e = 'e' || e = 'E' then
            let (es, rest2) :=
              match rest with
              | s :: r2 => if s = '+' || s = '-' then ([e, s], r2) else ([e], rest)
              | [] => ([e], rest)
            let ds := rest2.takeWhile Char.isDigit
            if ds.isEmpty then (none, cs3)
            else (some (es ++ ds), rest2.dropWhile Char.isDigit)
          else (none, cs3)
        | [] => (none, cs3)
      match expPart, cs3 with
      | none, e :: _ =>
        if e = 'e' || e = 'E' then none
        else some (⟨sign ++ intPart ++ (fracPart.getD []) ++ []⟩, cs3)
      | none, [] => some (⟨sign ++ intPart ++ (fracPart.getD [])⟩, cs3)
      | some ep, _ => some (⟨sign ++ intPart ++ (fracPart.getD []) ++ ep⟩, cs4)

mutual

/-- Parse one JSON value.  `fuel` strictly decreases on every recursive
call; `json_loads` supplies enough for any input of the given length. -/
def parseJVal : Nat → List Char → Option (JVal × List Char)
  | 0, _ => none
  | fuel + 1, cs =>
    match skipWs cs with
    | [] => none
    | 'n' :: 'u' :: 'l' :: 'l' :: rest => some (.null, rest)
    | 't' :: 'r' :: 'u' :: 'e' :: rest => some (.bool true, rest)
    | 'f' :: 'a' :: 'l' :: 's' :: 'e' :: rest => some (.bool false, rest)
    | '"' :: rest =>
      match parseJStrBody rest with
      | some (body, rem) => some (.str ⟨body⟩, rem)
      | none => none
    | '[' :: rest =>
      (match skipWs rest with
       | ']' :: rem => some (.arr [], rem)
       | other =>
         match parseJItems fuel other with
         | some (items, rem) => some (.arr items, rem)
         | none => none)
    | '{' :: rest =>
      (match skipWs rest with
       | '}' :: rem => some (.obj [], rem)
       | other =>
         match parseJFields fuel other with
         | some (fields, rem) => some (.obj fields, rem)
         | none => none)
    | other => lexJNum other |>.map (fun (lx, rem) => (.num lx, rem))

/-- Parse a non-empty comma-separated list of array items up to `]`. -/
def parseJItems : Nat → List Char → Option (List JVal × List Char)
  | 0, _ => none
  | fuel + 1, cs =>
    match parseJVal fuel cs with
    | none => none
    | some (v, rest) =>
      match skipWs rest with
      | ',' :: rest2 =>
        (match parseJItems fuel rest2 with
         | some (items, rem) => some (v :: items, rem)
         | none => none)
      | ']' :: rem => some ([v], rem)
      | _ => none

/-- Parse a non-empty comma-separated list of object fields up to `}`. -/
def parseJFields : Nat → List Char → Option (List (String × JVal) × List Char)
  | 0, _ => none
  | fuel + 1, cs =>
    match skipWs cs with
    | '"' :: rest =>
      (match parseJStrBody rest with
       | none => none
       | some (keyChars, rest2) =>
         match skipWs rest2 with
         | ':' :: rest3 =>
           (match parseJVal fuel rest3 with
            | none => none
            | some (v, rest4) =>
              match skipWs rest4 with
              | ',' :: rest5 =>
                (match parseJFields fuel rest5 with
                 | some (fields, rem) => some ((⟨keyChars⟩, v) :: fields, rem)
                 | none => none)
              | '}' :: rem => some ([(⟨keyChars⟩, v)], rem)
              | _ => none)
         | _ => none)
    | _ => none

end

/-- Model of Python `json.loads`: parse one JSON value surrounded by
optional whitespace; `none` models a raised `JSONDecodeError`.  In
particular `json_loads "" = none` (an empty payload is not valid JSON). -/
def json_loads (s : String) : Option JVal :=
  match parseJVal (4 * s.length + 16) s.data with
  | some (v, rest) => if (skipWs rest).isEmpty then some v else none
  | none => none

/-! ## JSON access helpers (Python `dict.get` / defaults) -/

/-- First binding of a key in an association list (Python dict keys are
unique, so first = only). -/
def lookupField : List (String × JVal) → String → Option JVal
  | [], _ => none
  | (k', v) :: rest, k => if k' = k then some v else lookupField rest k

/-- Python `d.get(k)`: `none` when the key is absent or the value is not
an object. -/
def jget (v : JVal) (k : String) : Option JVal :=
  match v with
  | .obj fields => lookupField fields k
  | _ => none

/-- Extract a string value; `none` for absent or non-string values. -/
def jstr (o : Option JVal) : Option String :=
  match o with
  | some (.str s) => some s
  | _ => none

/-- Python `d.get(k, default)` for string-valued fields. -/
def jstrD (o : Option JVal) (d : String) : String :=
  (jstr o).getD d

/-- Python `d.get(k, [])` for array-valued fields. -/
def jarrD (o : Option JVal) : List JVal :=
  match o with
  | some (.arr items) => items
  | _ => []

/-- Whether a JSON value is an object (Python `isinstance(entry, dict)`). -/
def isObjJ (v : JVal) : Bool :=
  match v with
  | .obj _ => true
  | _ => false

/-! ## The shared finding schema

Both parsers always populate `source`, `name`, `severity`, `description`,
`solution`, `location` and `scanner`, so these are total fields; the
scanner-specific extras are optional, as in the JSON records. -/

structure Finding where
  source : String
  name : String
  severity : String
  description : String
  solution : String
  location : String
  scanner : String
  rule_id : Option String := none
  template_id : Option String := none
  matched_at : Option String := none
  confidence : Option String := none
  instances : Option Nat := none
deriving Repr, DecidableEq

/-- Python exceptions raised by the embedded code paths. -/
inductive PyErr where
  | jsonDecodeError
  | indexError
  | attributeError
  | typeError
  | keyError
deriving Repr, DecidableEq

/-! ## Finding normalizer: `risk-evaluator.py`

A report file is `Option String`: `none` models a path for which
`report_path.exists()` is false, `some raw` a file with content `raw`.
Non-string values in positions where the Python code only stores the
value are coerced through `jstr`/`jstrD` (real reports carry strings
there); where the Python code calls a `str` method on the value, a
non-string raises, which the embedding models with `PyErr`. -/

/-- Python iteration `for x in v`: lists yield their elements, strings
yield one-character strings, dicts yield their keys (in insertion
order); null, booleans and numbers are not iterable (`TypeError`). -/
def iterElems (v : JVal) : Except PyErr (List JVal) :=
  match v with
  | .arr xs => Except.ok xs
  | .str s => Except.ok (s.data.map (fun c => JVal.str ⟨[c]⟩))
  | .obj fs => Except.ok (fs.map (fun p => JVal.str p.1))
  | _ => Except.error PyErr.typeError

/-- Severity extraction for one ZAP alert, exactly the source line
`alert.get("riskdesc", "INFO").split()[0].upper()`: `AttributeError`
when the alert is not a dict (`.get` on a non-dict) or when `riskdesc`
holds a non-string (`.split` on a non-string); `IndexError` when
`split()` yields no token, i.e. when the string is empty or all
whitespace. -/
def zapSeverity (alert : JVal) : Except PyErr String :=
  match alert with
  | .obj _ =>
    (match jget alert "riskdesc" with
     | none => Except.ok "INFO"
     | some (.str s) =>
       (match pySplit s with
        | [] => Except.error PyErr.indexError
        | t :: _ => Except.ok (pyUpper t))
     | some _ => Except.error PyErr.attributeError)
  | _ => Except.error PyErr.attributeError

/-- The `instances` handling of one alert:
`instances = alert.get("instances", [])`,
`first_instance = instances[0] if instances else {}`, then
`first_instance.get(...)` and finally `len(instances)`.  Returns the
first instance (`none` standing for the `{}` fallback) and the length,
or the exception Python raises on malformed values: subscripting a
truthy number or boolean raises `TypeError` and a truthy dict
`KeyError` (JSON object keys are strings, so key `0` is absent);
`.get` on a non-dict first element — including the one-character string
obtained from a truthy string — raises `AttributeError`; and `len` of a
falsy null/boolean/number raises `TypeError` (truthy and falsy
numbers/booleans and null therefore all end in `TypeError`). -/
def zapInstancesPlan (v : Option JVal) : Except PyErr (Option JVal × Nat) :=
  match v with
  | none => Except.ok (none, 0)
  | some (.arr []) => Except.ok (none, 0)
  | some (.arr (h :: t)) =>
    (match h with
     | .obj fs => Except.ok (some (JVal.obj fs), (h :: t).length)
     | _ => Except.error PyErr.attributeError)
  | some (.str s) =>
    if s = "" then Except.ok (none, 0) else Except.error PyErr.attributeError
  | some (.obj []) => Except.ok (none, 0)
  | some (.obj (_ :: _)) => Except.error PyErr.keyError
  | some _ => Except.error PyErr.typeError

/-- Record construction for one ZAP alert: severity first (its exception
wins), then the instances handling, then the total field extractions.
Non-string values in positions the code merely stores (name, desc,
solution, uri, plugin ids, confidence) are coerced through
`jstr`/`jstrD`; Python would store them unchanged without raising, and
no downstream claim observes them. -/
def zapAlertFinding (alert : JVal) : Except PyErr Finding := do
  let severity ← zapSeverity alert
  let p ← zapInstancesPlan (jget alert "instances")
  let firstInstance := p.1.getD (JVal.obj [])
  let location :=
    pyOrOpt (jstr (jget firstInstance "uri")) (jstr (jget firstInstance "requestHeader"))
  pure {
    source := "ZAP"
    name := jstrD (jget alert "name") "Unknown"
    severity := severity
    description := jstrD (jget alert "desc") ""
    solution := jstrD (jget alert "solution") ""
    instances := some p.2
    location := pyOrStr location "Unknown"
    rule_id := pyOrOpt (jstr (jget alert "pluginId")) (jstr (jget alert "pluginid"))
    confidence := jstr (jget alert "confidence")
    scanner := "ZAP"
  }

/-- Findings of one ZAP site: one finding per alert (not per instance).
A non-dict site raises `AttributeError` at `site.get("alerts", [])`. -/
def zapSiteFindings (site : JVal) : Except PyErr (List Finding) :=
  match site with
  | .obj _ => do
    let alerts ← iterElems ((jget site "alerts").getD (JVal.arr []))
    alerts.mapM zapAlertFinding
  | _ => Except.error PyErr.attributeError

/-- The loop body of `parse_zap_report` after `json.load` succeeded.  A
non-dict top-level document raises `AttributeError` at
`data.get("site", [])`. -/
def zapFindings (data : JVal) : Except PyErr (List Finding) :=
  match data with
  | .obj _ => do
    let sites ← iterElems ((jget data "site").getD (JVal.arr []))
    let lists ← sites.mapM zapSiteFindings
    pure lists.flatten
  | _ => Except.error PyErr.attributeError

/-- Model of `parse_zap_report`: a missing file yields `[]`; an existing
file is decoded with `json.load`, which raises on content that is not
valid JSON — including the empty file. -/
def parse_zap_report (file : Option String) : Except PyErr (List Finding) :=
  match file with
  | none => .ok []
  | some raw =>
    match json_loads raw with
    | none => .error PyErr.jsonDecodeError
    | some data => zapFindings data

/-- Record construction for one Nuclei entry (already known to be a
dict).  A non-dict `info` value raises `AttributeError` at
`info.get("severity", "info")`, its first use.  The location chain
`entry.get("matched-at") or entry.get("host") or info.get("reference", [None])[0]`
is evaluated only when the first two are falsy and then mirrors
Python's `[0]`: `IndexError` on an empty list or empty string, the
first element of a non-empty list, the first character of a non-empty
string, `KeyError` on a dict (JSON keys are strings) and `TypeError`
on null/booleans/numbers. -/
def nucleiEntryFinding (entry : JVal) : Except PyErr Finding := do
  let info ←
    (match jget entry "info" with
     | none => Except.ok (JVal.obj [])
     | some (.obj fs) => Except.ok (JVal.obj fs)
     | some _ => Except.error PyErr.attributeError : Except PyErr JVal)
  let severity ←
    match jget info "severity" with
    | none => pure "INFO"
    | some (.str s) => pure (pyUpper s)
    | some _ => throw PyErr.attributeError
  let location ←
    (let a := jstr (jget entry "matched-at")
     if truthyO a then pure a else
     let b := jstr (jget entry "host")
     if truthyO b then pure b else
     match jget info "reference" with
     | none => pure none
     | some (.arr []) => throw PyErr.indexError
     | some (.arr (v :: _)) => pure (jstr (some v))
     | some (.str s) =>
       if s = "" then throw PyErr.indexError else pure (some (s.take 1))
     | some (.obj _) => throw PyErr.keyError
     | some _ => throw PyErr.typeError : Except PyErr (Option String))
  pure {
    source := "Nuclei"
    name := jstrD (jget info "name") "Unknown"
    severity := severity
    description := jstrD (jget info "description") ""
    solution := jstrD (jget info "remediation") "Review and patch"
    matched_at := some (jstrD (jget entry "matched-at") "")
    location := pyOrStr location "Unknown"
    template_id := pyOrOpt (jstr (jget info "id")) (jstr (jget entry "template-id"))
    scanner := "Nuclei"
  }

/-- Model of `parse_nuclei_report`: a missing file yields `[]`; an
existing file whose stripped content is empty yields `[]` before any
JSON decoding; otherwise the whole stripped payload is decoded (a
non-array payload becomes a single entry), falling back to
line-delimited decoding of the original content, silently skipping
blank and unparseable lines; non-dict entries are skipped. -/
def parse_nuclei_report (file : Option String) : Except PyErr (List Finding) :=
  match file with
  | none => .ok []
  | some orig =>
    let raw := pyStrip orig
    if raw = "" then .ok []
    else
      let entries : List JVal :=
        match json_loads raw with
        | some (.arr items) => items
        | some v => [v]
        | none =>
          (orig.splitOn "\n").filterMap (fun line =>
            let l := pyStrip line
            if l = "" then none else json_loads l)
      (entries.filter isObjJ).mapM nucleiEntryFinding

/-! ## Stable descending sort

Python's `sorted(items, key=k, reverse=True)` is guaranteed stable and
`reverse=True` preserves stability.  Its result is characterised by:
it is a permutation of the input, its keys are descending, and for each
key value the subsequence of elements with that key is unchanged.
`sortDesc` is a stable insertion sort with exactly these properties,
proved below. -/

/-- Insert `a` before the first element whose key is `le` the key of `a`
(so among equal keys the newly inserted — originally earlier — element
comes first). -/
def insDesc (key : α → K) (le : K → K → Prop) [DecidableRel le] (a : α) :
    List α → List α
  | [] => [a]
  | b :: l => if le (key b) (key a) then a :: b :: l else b :: insDesc key le a l

/-- Stable insertion sort, descending with respect to `le` on keys. -/
def sortDesc (key : α → K) (le : K → K → Prop) [DecidableRel le] :
    List α → List α
  | [] => []
  | x :: xs => insDesc key le x (sortDesc key le xs)

theorem insDesc_perm (key : α → K) (le : K → K → Prop) [DecidableRel le]
    (a : α) (l : List α) : List.Perm (insDesc key le a l) (a :: l) := by
  induction l with
  | nil => simp [insDesc]
  | cons b t ih =>
    by_cases h : le (key b) (key a)
    · simp [insDesc, h]
    · simp only [insDesc, if_neg h]
      exact ((ih.cons b).trans (List.Perm.swap a b t))

theorem sortDesc_perm (key : α → K) (le : K → K → Prop) [DecidableRel le]
    (l : List α) : List.Perm (sortDesc key le l) l := by
  induction l with
  | nil => rfl
  | cons x xs ih =>
    exact (insDesc_perm key le x (sortDesc key le xs)).trans (ih.cons x)

theorem insDesc_pairwise (key : α → K) (le : K → K → Prop) [DecidableRel le]
    (htot : ∀ x y : K, le x y ∨ le y x)
    (htrans : ∀ x y z : K, le x y → le y z → le x z)
    (a : α) (l : List α) (h : l.Pairwise (fun x y => le (key y) (key x))) :
    (insDesc key le a l).Pairwise (fun x y => le (key y) (key x)) := by
  induction l with
  | nil => simp [insDesc]
  | cons b t ih =>
    rcases List.pairwise_cons.mp h with ⟨hb, ht⟩
    by_cases hle : le (key b) (key a)
    · simp only [insDesc, if_pos hle]
      refine List.pairwise_cons.mpr ⟨?_, h⟩
      intro z hz
      rcases List.mem_cons.mp hz with hz | hz
      · exact hz ▸ hle
      · exact htrans _ _ _ (hb z hz) hle
    · simp only [insDesc, if_neg hle]
      refine List.pairwise_cons.mpr ⟨?_, ih ht⟩
      intro z hz
      have hz' : z ∈ a :: t := (insDesc_perm key le a t).mem_iff.mp hz
      rcases List.mem_cons.mp hz' with hz' | hz'
      · rcases htot (key b) (key a) with hh | hh
        · exact absurd hh hle
        · exact hz'.symm ▸ hh
      · exact hb z hz'

theorem sortDesc_pairwise (key : α → K) (le : K → K → Prop) [DecidableRel le]
    (htot : ∀ x y : K, le x y ∨ le y x)
    (htrans : ∀ x y z : K, le x y → le y z → le x z)
    (l : List α) :
    (sortDesc key le l).Pairwise (fun x y => le (key y) (key x)) := by
  induction l with
  | nil => simp [sortDesc]
  | cons x xs ih => exact insDesc_pairwise key le htot htrans x _ ih

theorem insDesc_filter [DecidableEq K] (key : α → K) (le : K → K → Prop)
    [DecidableRel le] (htot : ∀ x y : K, le x y ∨ le y x)
    (a : α) (l : List α) (k : K) :
    (insDesc key le a l).filter (fun x => decide (key x = k)) =
      if key a = k then a :: l.filter (fun x => decide (key x = k))
      else l.filter (fun x => decide (key x = k)) := by
  have hrefl : ∀ x : K, le x x := fun x => (htot x x).elim id id
  induction l with
  | nil => by_cases hk : key a = k <;> simp [insDesc, hk]
  | cons b t ih =>
    by_cases hle : le (key b) (key a)
    · simp only [insDesc, if_pos hle]
      by_cases hk : key a = k <;> simp [List.filter_cons, hk]
    · have hbk : key b ≠ key a := fun hEq => hle (hEq ▸ hrefl (key b))
      simp only [insDesc, if_neg hle]
      by_cases hk : key a = k
      · have hbk' : ¬ (key b = k) := fun hEq => hbk (hEq.trans hk.symm)
        simp [List.filter_cons, hbk', ih, hk]
      · by_cases hb : key b = k <;> simp [List.filter_cons, hb, ih, hk]

theorem sortDesc_filter [DecidableEq K] (key : α → K) (le : K → K → Prop)
    [DecidableRel le] (htot : ∀ x y : K, le x y ∨ le y x)
    (l : List α) (k : K) :
    (sortDesc key le l).filter (fun x => decide (key x = k)) =
      l.filter (fun x => decide (key x = k)) := by
  induction l with
  | nil => rfl
  | cons x xs ih =>
    by_cases hk : key x = k <;>
      simp [sortDesc, insDesc_filter key le htot, hk, ih]

/-! Lexicographic order on `Nat × Nat` pairs, as Python compares the
sort-key tuples `(severity_weight * count, count)`. -/

/-- Lexicographic `≤` on pairs of naturals (Python tuple comparison). -/
def lexLe (a b : Nat × Nat) : Prop :=
  a.1 < b.1 ∨ (a.1 = b.1 ∧ a.2 ≤ b.2)

instance : DecidableRel lexLe := fun a b => by
  unfold lexLe; infer_instance

theorem lexLe_total : ∀ x y : Nat × Nat, lexLe x y ∨ lexLe y x := by
  intro x y
  rcases Nat.lt_trichotomy x.1 y.1 with h | h | h
  · exact Or.inl (Or.inl h)
  · rcases Nat.le_total x.2 y.2 with h2 | h2
    · exact Or.inl (Or.inr ⟨h, h2⟩)
    · exact Or.inr (Or.inr ⟨h.symm, h2⟩)
  · exact Or.inr (Or.inl h)

theorem lexLe_trans : ∀ x y z : Nat × Nat, lexLe x y → lexLe y z → lexLe x z := by
  intro x y z hxy hyz
  rcases hxy with h1 | ⟨h1, h1'⟩ <;> rcases hyz with h2 | ⟨h2, h2'⟩
  · exact Or.inl (h1.trans h2)
  · exact Or.inl (h2 ▸ h1)
  · exact Or.inl (h1 ▸ h2)
  · exact Or.inr ⟨h1.trans h2, h1'.trans h2'⟩

/-- Python `sorted(strings)`: ascending stable sort on strings
(lexicographic by code point, matching Lean's `String` order). -/
def sortStrings (l : List String) : List String :=
  sortDesc id (fun a b : String => b ≤ a) l

theorem sortStrings_pairwise (l : List String) :
    (sortStrings l).Pairwise (fun x y => x ≤ y) :=
  sortDesc_pairwise id (fun a b : String => b ≤ a)
    (fun x y => le_total y x) (fun _ _ _ h1 h2 => h2.trans h1) l

theorem sortStrings_perm (l : List String) : List.Perm (sortStrings l) l :=
  sortDesc_perm id (fun a b : String => b ≤ a) l

/-! ## Report generator: `report-generator.py` — attack-surface clustering -/

/-- Fixed severity weight table `SEVERITY_MAP`. -/
def SEVERITY_MAP : List (String × Nat) :=
  [("CRITICAL", 5), ("HIGH", 4), ("MEDIUM", 3), ("LOW", 2), ("INFO", 1)]

/-- Weight lookup `SEVERITY_MAP.get(severity.upper(), 0)`. -/
def severity_weight (severity : String) : Nat :=
  (SEVERITY_MAP.lookup (pyUpper severity)).getD 0

/-- One attack-surface cluster: the value stored under a
`(location, severity)` key of the `clusters` dict, together with that
key.  The Python scanner `set` is modelled as a duplicate-free list in
insertion order; it is only ever observed through `sorted(...)`. -/
structure Cluster where
  location : String
  severity : String
  count : Nat
  scanners : List String
deriving Repr, DecidableEq

/-- Cluster key of a finding:
`(finding.get("location", "Unknown"), finding.get("severity", "INFO").upper())`
(the dict defaults never fire for schema-complete findings, whose
`location`/`severity` fields are always present). -/
def fkey (f : Finding) : String × String :=
  (f.location, pyUpper f.severity)

/-- Key under which a cluster is stored. -/
def ckey (c : Cluster) : String × String :=
  (c.location, c.severity)

/-- Python `set.add` on the insertion-ordered list model. -/
def addScanner (l : List String) (s : String) : List String :=
  if s ∈ l then l else l ++ [s]

/-- Update of an existing cluster entry:
`entry["count"] += 1; entry["scanners"].add(source)`. -/
def bumpCluster (c : Cluster) (f : Finding) : Cluster :=
  { c with count := c.count + 1, scanners := addScanner c.scanners f.source }

/-- Fresh cluster entry created by `setdefault` for an unseen key. -/
def freshCluster (f : Finding) : Cluster :=
  { location := f.location, severity := pyUpper f.severity, count := 1,
    scanners := [f.source] }

/-- One iteration of the clustering loop: bump the first (= only)
cluster with the finding's key, or append a fresh cluster. -/
def addToClusters : List Cluster → Finding → List Cluster
  | [], f => [freshCluster f]
  | c :: cs, f =>
    if ckey c = fkey f then bumpCluster c f :: cs
    else c :: addToClusters cs f

/-- The `clusters` dict after the loop, in insertion (= first-seen) order. -/
def clustersOf (findings : List Finding) : List Cluster :=
  findings.foldl addToClusters []

/-- Python sort key
`(severity_weight(item[0][1]) * item[1]["count"], item[1]["count"])`. -/
def clusterSortKey (c : Cluster) : Nat × Nat :=
  (severity_weight c.severity * c.count, c.count)

/-- The value of `sorted_clusters[:limit]`. -/
def rankedClusters (findings : List Finding) (limit : Nat) : List Cluster :=
  (sortDesc clusterSortKey lexLe (clustersOf findings)).take limit

/-- One rendered highlight line (the literal text reproduces the
mojibake dash committed in the source file). -/
def clusterLine (c : Cluster) : String :=
  "- `" ++ c.location ++ "` (" ++ c.severity ++ ") â€” " ++ toString c.count ++
    " findings from " ++ ", ".intercalate (sortStrings c.scanners) ++ "."

/-- Model of `generate_attack_surface` (default `limit = 5`). -/
def generate_attack_surface (findings : List Finding) (limit : Nat := 5) : String :=
  let lines := (rankedClusters findings limit).map clusterLine
  if lines.isEmpty then "_No attack surface highlights available._"
  else "\n".intercalate lines

/-! Grouping lemmas: the cluster list holds one entry per distinct
finding key in first-seen order, with the number of matching findings
as its count and the distinct contributing sources as its scanner set. -/

/-- Number of findings of `fs` whose cluster key is `k`. -/
def keyCount (fs : List Finding) (k : String × String) : Nat :=
  (fs.filter (fun f => decide (fkey f = k))).length

/-- First (= only) cluster stored under key `k`. -/
def findCluster (cs : List Cluster) (k : String × String) : Option Cluster :=
  cs.find? (fun c => decide (ckey c = k))

/-- Accumulate the sources of `fs` into a scanner set. -/
def foldScanners (fs : List Finding) (init : List String) : List String :=
  fs.foldl (fun acc f => addScanner acc f.source) init

theorem addToClusters_map_ckey (cs : List Cluster) (f : Finding) :
    (addToClusters cs f).map ckey = pyDedupStep (cs.map ckey) (fkey f) := by
  induction cs with
  | nil => rfl
  | cons c cs ih =>
    by_cases h : ckey c = fkey f
    · simp only [addToClusters, if_pos h, List.map_cons]
      unfold pyDedupStep
      rw [if_pos (show fkey f ∈ ckey c :: cs.map ckey by
        rw [← h]; exact List.mem_cons_self _ _)]
      rfl
    · simp only [addToClusters, if_neg h, List.map_cons, ih, pyDedupStep]
      by_cases hm : fkey f ∈ cs.map ckey
      · simp [hm, Ne.symm h]
      · simp [hm, Ne.symm h]

theorem foldl_add_map_ckey (fs : List Finding) :
    ∀ cs : List Cluster,
      (fs.foldl addToClusters cs).map ckey =
        (fs.map fkey).foldl pyDedupStep (cs.map ckey) := by
  induction fs with
  | nil => intro cs; rfl
  | cons f fs ih =>
    intro cs
    simp only [List.foldl_cons, List.map_cons]
    rw [ih, addToClusters_map_ckey]

/-- The cluster keys are exactly the finding keys, deduplicated in
first-seen order. -/
theorem clustersOf_map_ckey (fs : List Finding) :
    (clustersOf fs).map ckey = pyDedup (fs.map fkey) := by
  simpa using foldl_add_map_ckey fs []

theorem pyDedupStep_nodup [DecidableEq α] {acc : List α} (x : α)
    (h : acc.Nodup) : (pyDedupStep acc x).Nodup := by
  unfold pyDedupStep
  by_cases hx : x ∈ acc
  · simpa [hx] using h
  · simpa [hx] using List.Nodup.append h (List.nodup_singleton x)
      (by simpa using fun hmem => hx hmem)

theorem pyDedup_nodup [DecidableEq α] (l : List α) : (pyDedup l).Nodup := by
  have h : ∀ (l : List α) (acc : List α), acc.Nodup →
      (l.foldl pyDedupStep acc).Nodup := by
    intro l
    induction l with
    | nil => intro acc h; exact h
    | cons x xs ih =>
      intro acc h
      exact ih _ (pyDedupStep_nodup x h)
  exact h l [] List.nodup_nil

theorem mem_pyDedupStep [DecidableEq α] (acc : List α) (x y : α) :
    y ∈ pyDedupStep acc x ↔ y ∈ acc ∨ y = x := by
  unfold pyDedupStep
  by_cases hx : x ∈ acc
  · simp only [if_pos hx]
    constructor
    · exact Or.inl
    · rintro (h | rfl)
      · exact h
      · exact hx
  · simp [if_neg hx]

theorem mem_pyDedup [DecidableEq α] (l : List α) (y : α) :
    y ∈ pyDedup l ↔ y ∈ l := by
  have h : ∀ (l : List α) (acc : List α) (y : α),
      y ∈ l.foldl pyDedupStep acc ↔ y ∈ acc ∨ y ∈ l := by
    intro l
    induction l with
    | nil => intro acc y; simp
    | cons x xs ih =>
      intro acc y
      simp only [List.foldl_cons, ih, mem_pyDedupStep, List.mem_cons]
      tauto
  simpa using h l [] y

theorem mem_addScanner (l : List String) (s x : String) :
    x ∈ addScanner l s ↔ x ∈ l ∨ x = s := by
  unfold addScanner
  by_cases hs : s ∈ l
  · simp only [if_pos hs]
    constructor
    · exact Or.inl
    · rintro (h | rfl)
      · exact h
      · exact hs
  · simp [if_neg hs]

theorem mem_foldScanners (fs : List Finding) :
    ∀ (init : List String) (s : String),
      s ∈ foldScanners fs init ↔ s ∈ init ∨ ∃ f ∈ fs, f.source = s := by
  induction fs with
  | nil => intro init s; simp [foldScanners]
  | cons f fs ih =>
    intro init s
    simp only [foldScanners, List.foldl_cons]
    rw [show (List.foldl (fun acc g => addScanner acc g.source) (addScanner init f.source) fs)
          = foldScanners fs (addScanner init f.source) from rfl, ih, mem_addScanner]
    simp only [List.mem_cons]
    constructor
    · rintro ((h | h) | h)
      · exact Or.inl h
      · exact Or.inr ⟨f, Or.inl rfl, h.symm⟩
      · rcases h with ⟨g, hg, hgs⟩
        exact Or.inr ⟨g, Or.inr hg, hgs⟩
    · rintro (h | ⟨g, hg | hg, hgs⟩)
      · exact Or.inl (Or.inl h)
      · exact Or.inl (Or.inr (hg ▸ hgs.symm))
      · exact Or.inr ⟨g, hg, hgs⟩

theorem ckey_bumpCluster (c : Cluster) (f : Finding) :
    ckey (bumpCluster c f) = ckey c := rfl

theorem ckey_freshCluster (f : Finding) : ckey (freshCluster f) = fkey f := rfl

theorem addToClusters_find (cs : List Cluster) (f : Finding) (k : String × String) :
    findCluster (addToClusters cs f) k =
      if k = fkey f then
        match findCluster cs k with
        | some c => some (bumpCluster c f)
        | none => some (freshCluster f)
      else findCluster cs k := by
  induction cs with
  | nil =>
    by_cases hk : k = fkey f
    · subst hk
      rw [if_pos rfl]
      show findCluster [freshCluster f] (fkey f) = some (freshCluster f)
      unfold findCluster
      exact List.find?_cons_of_pos _ (decide_eq_true rfl)
    · have hne : ¬ (ckey (freshCluster f) = k) :=
        fun hEq => hk ((ckey_freshCluster f ▸ hEq) ▸ rfl)
      simp [addToClusters, findCluster, List.find?, hne, hk]
  | cons c cs ih =>
    by_cases hc : ckey c = fkey f
    · simp only [addToClusters, if_pos hc]
      by_cases hk : k = fkey f
      · subst hk
        have hb : ckey (bumpCluster c f) = fkey f := hc
        simp [findCluster, List.find?, hb, hc]
      · have hck : ¬ (ckey c = k) := fun hEq => hk ((hEq.symm.trans hc) ▸ rfl)
        have hb : ¬ (ckey (bumpCluster c f) = k) := hck
        simp [findCluster, List.find?, hb, hck, hk]
    · simp only [addToClusters, if_neg hc]
      by_cases hck : ckey c = k
      · have hk : ¬ (k = fkey f) := fun hEq => hc (hck.trans hEq)
        simp [findCluster, List.find?, hck, hk]
      · simp only [findCluster, List.find?] at ih ⊢
        simp [hck, ih]

/-- The cluster accumulated for key `k` over all of `fs`, starting from
nothing: its count is the number of matching findings and its scanners
are their sources, deduplicated in insertion order. -/
def keyCluster (fs : List Finding) (k : String × String) : Cluster :=
  { location := k.1, severity := k.2, count := keyCount fs k,
    scanners := foldScanners (fs.filter (fun f => decide (fkey f = k))) [] }

/-- The cluster `c0` further bumped by every finding of `fs` matching `k`. -/
def bumpClusterBy (c0 : Cluster) (fs : List Finding) (k : String × String) : Cluster :=
  { c0 with
      count := c0.count + keyCount fs k
      scanners := foldScanners (fs.filter (fun f => decide (fkey f = k))) c0.scanners }

theorem foldScanners_cons (f : Finding) (fs : List Finding) (init : List String) :
    foldScanners (f :: fs) init = foldScanners fs (addScanner init f.source) := rfl

theorem foldl_add_find (fs : List Finding) :
    ∀ (cs : List Cluster) (k : String × String),
      findCluster (fs.foldl addToClusters cs) k =
        match findCluster cs k with
        | some c0 => some (bumpClusterBy c0 fs k)
        | none => if keyCount fs k = 0 then none else some (keyCluster fs k) := by
  induction fs with
  | nil =>
    intro cs k
    match hfc : findCluster cs k with
    | some c0 => simp [hfc, keyCount, foldScanners, bumpClusterBy]
    | none => simp [hfc, keyCount]
  | cons f fs ih =>
    intro cs k
    simp only [List.foldl_cons]
    rw [ih (addToClusters cs f) k, addToClusters_find]
    by_cases hk : k = fkey f
    · subst hk
      have hfilter : (f :: fs).filter (fun g => decide (fkey g = fkey f)) =
          f :: fs.filter (fun g => decide (fkey g = fkey f)) := by
        simp [List.filter_cons]
      have hcount : keyCount (f :: fs) (fkey f) = keyCount fs (fkey f) + 1 := by
        simp [keyCount, List.filter_cons, Nat.add_comm]
      rw [if_pos rfl]
      match hfc : findCluster cs (fkey f) with
      | some c0 =>
        show some (bumpClusterBy (bumpCluster c0 f) fs (fkey f)) =
          some (bumpClusterBy c0 (f :: fs) (fkey f))
        simp only [bumpClusterBy, bumpCluster, hfilter, hcount, foldScanners_cons,
          Option.some.injEq, Cluster.mk.injEq, true_and, and_true]
        omega
      | none =>
        have hne : ¬ (keyCount (f :: fs) (fkey f) = 0) := by omega
        show some (bumpClusterBy (freshCluster f) fs (fkey f)) =
          if keyCount (f :: fs) (fkey f) = 0 then none
          else some (keyCluster (f :: fs) (fkey f))
        rw [if_neg hne]
        simp only [bumpClusterBy, freshCluster, keyCluster, hfilter, hcount,
          foldScanners_cons, Option.some.injEq, Cluster.mk.injEq]
        refine ⟨rfl, rfl, by omega, by simp [addScanner]⟩
    · have hne : ¬ (fkey f = k) := fun hEq => hk hEq.symm
      have hfilter : (f :: fs).filter (fun g => decide (fkey g = k)) =
          fs.filter (fun g => decide (fkey g = k)) := by
        simp [List.filter_cons, hne]
      have hcount : keyCount (f :: fs) k = keyCount fs k := by
        simp [keyCount, List.filter_cons, hne]
      rw [if_neg hk]
      match hfc : findCluster cs k with
      | some c0 =>
        show some (bumpClusterBy c0 fs k) = some (bumpClusterBy c0 (f :: fs) k)
        simp only [bumpClusterBy, hfilter, hcount]
      | none =>
        show (if keyCount fs k = 0 then none else some (keyCluster fs k)) =
          if keyCount (f :: fs) k = 0 then none else some (keyCluster (f :: fs) k)
        simp only [keyCluster, hfilter, hcount]

theorem clustersOf_find (fs : List Finding) (k : String × String) :
    findCluster (clustersOf fs) k =
      if keyCount fs k = 0 then none else some (keyCluster fs k) :=
  foldl_add_find fs [] k

theorem find_of_mem_nodup {cs : List Cluster} {c : Cluster}
    (hnd : (cs.map ckey).Nodup) (hc : c ∈ cs) :
    findCluster cs (ckey c) = some c := by
  induction cs with
  | nil => cases hc
  | cons c' cs ih =>
    rcases List.mem_cons.mp hc with rfl | hc'
    · unfold findCluster
      exact List.find?_cons_of_pos _ (decide_eq_true rfl)
    · have hnd' := List.nodup_cons.mp hnd
      have hne : ¬ (ckey c' = ckey c) :=
        fun hEq => hnd'.1 (hEq ▸ List.mem_map_of_mem ckey hc')
      unfold findCluster
      rw [List.find?_cons_of_neg _ (by simpa using hne)]
      exact ih hnd'.2 hc'

/-- Every stored cluster is exactly the accumulated cluster for its key:
count = number of matching findings, scanners = their deduplicated
sources. -/
theorem clustersOf_mem_spec {fs : List Finding} {c : Cluster}
    (hc : c ∈ clustersOf fs) : c = keyCluster fs (ckey c) := by
  have hnd : ((clustersOf fs).map ckey).Nodup := by
    rw [clustersOf_map_ckey]; exact pyDedup_nodup _
  have hf := find_of_mem_nodup hnd hc
  rw [clustersOf_find] at hf
  by_cases h0 : keyCount fs (ckey c) = 0
  · rw [if_pos h0] at hf; cases hf
  · rw [if_neg h0] at hf
    exact (Option.some.inj hf).symm

theorem clustersOf_count {fs : List Finding} {c : Cluster}
    (hc : c ∈ clustersOf fs) : c.count = keyCount fs (ckey c) :=
  congrArg Cluster.count (clustersOf_mem_spec hc)

theorem clustersOf_scanners_mem {fs : List Finding} {c : Cluster}
    (hc : c ∈ clustersOf fs) (s : String) :
    s ∈ c.scanners ↔ ∃ f ∈ fs, fkey f = ckey c ∧ f.source = s := by
  have hsc : c.scanners =
      foldScanners (fs.filter (fun f => decide (fkey f = ckey c))) [] :=
    congrArg Cluster.scanners (clustersOf_mem_spec hc)
  rw [hsc, mem_foldScanners]
  simp only [List.not_mem_nil, false_or, List.mem_filter, decide_eq_true_eq]
  constructor
  · rintro ⟨f, ⟨hf, hkey⟩, hs⟩
    exact ⟨f, hf, hkey, hs⟩
  · rintro ⟨f, hf, hkey, hs⟩
    exact ⟨f, ⟨hf, hkey⟩, hs⟩

theorem severity_weight_unknown (s : String)
    (h : pyUpper s ∉ ["CRITICAL", "HIGH", "MEDIUM", "LOW", "INFO"]) :
    severity_weight s = 0 := by
  simp only [List.mem_cons, List.not_mem_nil, or_false, not_or] at h
  obtain ⟨h1, h2, h3, h4, h5⟩ := h
  unfold severity_weight SEVERITY_MAP
  simp [List.lookup, beq_eq_false_iff_ne.mpr h1, beq_eq_false_iff_ne.mpr h2,
    beq_eq_false_iff_ne.mpr h3, beq_eq_false_iff_ne.mpr h4,
    beq_eq_false_iff_ne.mpr h5]

/-- C1: `generate_attack_surface` groups findings by `(location, severity)`
— one cluster per distinct key, kept in first-seen order, whose count is
the number of findings with that key and whose scanner set is their
distinct sources — and the ranking is the stable descending sort by the
key `(severity_weight(severity) * count, count)` (product first, raw
count as tie-break, fully equal keys keeping first-seen order, expressed
by the per-key filter equality), truncated to at most the top 5; each
emitted cluster's contributing scanner names are rendered sorted
alphabetically; the weights are CRITICAL=5, HIGH=4, MEDIUM=3, LOW=2,
INFO=1 and 0 for any unknown severity. -/
theorem c1_attack_surface_ranking (findings : List Finding) :
    (severity_weight "CRITICAL" = 5 ∧ severity_weight "HIGH" = 4 ∧
      severity_weight "MEDIUM" = 3 ∧ severity_weight "LOW" = 2 ∧
      severity_weight "INFO" = 1 ∧
      ∀ s : String, pyUpper s ∉ ["CRITICAL", "HIGH", "MEDIUM", "LOW", "INFO"] →
        severity_weight s = 0) ∧
    (clustersOf findings).map ckey = pyDedup (findings.map fkey) ∧
    (∀ c ∈ clustersOf findings, c.count = keyCount findings (ckey c)) ∧
    (∀ c ∈ clustersOf findings, ∀ s : String,
      s ∈ c.scanners ↔ ∃ f ∈ findings, fkey f = ckey c ∧ f.source = s) ∧
    List.Perm (sortDesc clusterSortKey lexLe (clustersOf findings))
      (clustersOf findings) ∧
    (sortDesc clusterSortKey lexLe (clustersOf findings)).Pairwise
      (fun a b => lexLe (clusterSortKey b) (clusterSortKey a)) ∧
    (∀ k : Nat × Nat,
      (sortDesc clusterSortKey lexLe (clustersOf findings)).filter
          (fun c => decide (clusterSortKey c = k)) =
        (clustersOf findings).filter (fun c => decide (clusterSortKey c = k))) ∧
    rankedClusters findings 5 =
      (sortDesc clusterSortKey lexLe (clustersOf findings)).take 5 ∧
    (rankedClusters findings 5).length ≤ 5 ∧
    (∀ c ∈ rankedClusters findings 5,
      (sortStrings c.scanners).Pairwise (fun a b => a ≤ b) ∧
      ∀ s : String, s ∈ sortStrings c.scanners ↔
        ∃ f ∈ findings, fkey f = ckey c ∧ f.source = s) := by
  refine ⟨⟨by decide, by decide, by decide, by decide, by decide,
      severity_weight_unknown⟩,
    clustersOf_map_ckey findings,
    fun c hc => clustersOf_count hc,
    fun c hc s => clustersOf_scanners_mem hc s,
    sortDesc_perm _ _ _,
    sortDesc_pairwise _ _ lexLe_total lexLe_trans _,
    fun k => sortDesc_filter _ _ lexLe_total _ k,
    rfl,
    List.length_take_le 5 _,
    ?_⟩
  intro c hc
  have hcs : c ∈ clustersOf findings :=
    (sortDesc_perm clusterSortKey lexLe (clustersOf findings)).subset
      ((List.take_sublist 5 _).subset hc)
  refine ⟨sortStrings_pairwise c.scanners, fun s => ?_⟩
  rw [(sortStrings_perm c.scanners).mem_iff]
  exact clustersOf_scanners_mem hcs s

/-- Concrete findings used by witnesses: two findings share the cluster
key `("http://a", "HIGH")`, a third has key `("http://b", "INFO")`. -/
def demoF1 : Finding :=
  { source := "ZAP", name := "X", severity := "High", description := "d",
    solution := "s", location := "http://a", scanner := "ZAP" }

def demoF2 : Finding :=
  { demoF1 with source := "Nuclei", scanner := "Nuclei" }

def demoF3 : Finding :=
  { demoF1 with location := "http://b", severity := "INFO" }

def demoFindings : List Finding := [demoF1, demoF2, demoF3]

/-- Witness for C1 at a concrete findings list: an unknown severity gets
weight 0, the cluster of the duplicated key has count 2 and exactly the
two sources as scanners, and at most 5 clusters are emitted. -/
theorem c1_attack_surface_ranking_witness :
    severity_weight "BOGUS" = 0 ∧
    (Cluster.mk "http://a" "HIGH" 2 ["ZAP", "Nuclei"]).count =
      keyCount demoFindings (ckey (Cluster.mk "http://a" "HIGH" 2 ["ZAP", "Nuclei"])) ∧
    ("Nuclei" ∈ (Cluster.mk "http://a" "HIGH" 2 ["ZAP", "Nuclei"]).scanners ↔
      ∃ f ∈ demoFindings,
        fkey f = ckey (Cluster.mk "http://a" "HIGH" 2 ["ZAP", "Nuclei"]) ∧
        f.source = "Nuclei") ∧
    (rankedClusters demoFindings 5).length ≤ 5 := by
  obtain ⟨⟨_, _, _, _, _, hunk⟩, _, hcount, hscan, _, _, _, _, hlen, _⟩ :=
    c1_attack_surface_ranking demoFindings
  have hmem : Cluster.mk "http://a" "HIGH" 2 ["ZAP", "Nuclei"] ∈
      clustersOf demoFindings := by decide
  exact ⟨hunk "BOGUS" (by decide), hcount _ hmem, hscan _ hmem "Nuclei", hlen⟩

/-! ## Tuning helper: `tuning-helper.py` -/

/-- Flattened record produced by `flatten_findings` for one finding. -/
structure FlatRec where
  key : String
  source : String
  name : String
  rule : String
  severity : String
  location : String
  description : String
deriving Repr, DecidableEq

/-- Flattening of one finding.  `source` is
`finding.get("scanner") or finding.get("source", "Unknown")` and `rule`
is `finding.get("rule_id") or finding.get("template_id") or finding.get("name")`
with Python falsy (`None`/`""`) fallthrough; both parsers always set
`scanner`, `source` and `name`, so the terminal dict defaults are spelled
through the total fields. -/
def flattenOne (f : Finding) : FlatRec :=
  let source := pyOrStr (some f.scanner) f.source
  let rule := pyOrStr f.rule_id (pyOrStr f.template_id f.name)
  { key := source ++ ":" ++ rule
    source := source
    name := f.name
    rule := rule
    severity := f.severity
    location := pyOrStr (some f.location) (pyOrStr f.matched_at "Unknown")
    description := f.description }

/-- Model of `flatten_findings`. -/
def flatten_findings (findings : List Finding) : List FlatRec :=
  findings.map flattenOne

/-- One `counter[key] += 1` step on the insertion-ordered counter. -/
def bumpCounter : List (String × Nat) → String → List (String × Nat)
  | [], k => [(k, 1)]
  | (k', n) :: rest, k =>
    if k' = k then (k', n + 1) :: rest else (k', n) :: bumpCounter rest k

/-- The `collections.Counter` contents in insertion (= first-seen) order. -/
def counterOf (keys : List String) : List (String × Nat) :=
  keys.foldl bumpCounter []

/-- One `details.setdefault(key, finding)` step: keep the first record. -/
def addDetail (d : List (String × FlatRec)) (r : FlatRec) : List (String × FlatRec) :=
  if d.any (fun p => decide (p.1 = r.key)) then d else d ++ [(r.key, r)]

/-- The `details` dict after the loop. -/
def detailsOf (flat : List FlatRec) : List (String × FlatRec) :=
  flat.foldl addDetail []

/-- Dict lookup `details[key]`. -/
def lookupDetail (d : List (String × FlatRec)) (k : String) : Option FlatRec :=
  (d.find? (fun p => decide (p.1 = k))).map Prod.snd

/-- `Counter.most_common(limit)`: CPython documents `heapq.nlargest`
(used when a limit is given) as equivalent to
`sorted(items, key=itemgetter(1), reverse=True)[:limit]`, a stable
descending sort by count truncated to `limit`. -/
def mostCommon (ctr : List (String × Nat)) (limit : Nat) : List (String × Nat) :=
  (sortDesc Prod.snd (fun a b : Nat => a ≤ b) ctr).take limit

/-- One entry of the tuning summary. -/
structure TuningEntry where
  source : String
  rule : String
  name : String
  count : Nat
  severity : String
  location : String
  description : String
deriving Repr, DecidableEq

/-- Fallback record for the (never exercised) missing-key dict lookup. -/
def dummyFlat : FlatRec :=
  { key := "", source := "", name := "", rule := "", severity := "",
    location := "", description := "" }

/-- The summary entry built from one `most_common` pair and the
representative stored in `details`. -/
def entryOf (flat : List FlatRec) (p : String × Nat) : TuningEntry :=
  let record := (lookupDetail (detailsOf flat) p.1).getD dummyFlat
  { source := record.source
    rule := record.rule
    name := record.name
    count := p.2
    severity := record.severity
    location := record.location
    description := record.description }

/-- Model of `summarize_findings`. -/
def summarize_findings (flat : List FlatRec) (limit : Nat) : List TuningEntry :=
  (mostCommon (counterOf (flat.map FlatRec.key)) limit).map (entryOf flat)

/-! Counter lemmas, following the same find-characterisation pattern as
the clustering lemmas. -/

/-- Occurrences of `k` in `keys`. -/
def countKey (keys : List String) (k : String) : Nat :=
  (keys.filter (fun x => decide (x = k))).length

theorem bumpCounter_map_fst (ctr : List (String × Nat)) (k : String) :
    (bumpCounter ctr k).map Prod.fst = pyDedupStep (ctr.map Prod.fst) k := by
  induction ctr with
  | nil => rfl
  | cons p rest ih =>
    obtain ⟨k', n⟩ := p
    by_cases h : k' = k
    · unfold bumpCounter
      rw [if_pos h]
      unfold pyDedupStep
      rw [if_pos (show k ∈ (((k', n) :: rest).map Prod.fst) by
        simp [h.symm, List.mem_cons])]
      simp
    · simp only [bumpCounter, if_neg h, List.map_cons, ih, pyDedupStep]
      by_cases hm : k ∈ rest.map Prod.fst
      · simp [hm, Ne.symm h]
      · simp [hm, Ne.symm h]

theorem counterOf_map_fst (keys : List String) :
    (counterOf keys).map Prod.fst = pyDedup keys := by
  have h : ∀ (keys : List String) (ctr : List (String × Nat)),
      (keys.foldl bumpCounter ctr).map Prod.fst =
        keys.foldl pyDedupStep (ctr.map Prod.fst) := by
    intro keys
    induction keys with
    | nil => intro ctr; rfl
    | cons k keys ih =>
      intro ctr
      simp only [List.foldl_cons]
      rw [ih, bumpCounter_map_fst]
  simpa using h keys []

/-- First counter entry with key `k`. -/
def findCount (ctr : List (String × Nat)) (k : String) : Option (String × Nat) :=
  ctr.find? (fun p => decide (p.1 = k))

theorem bumpCounter_find_self (ctr : List (String × Nat)) (k : String) :
    findCount (bumpCounter ctr k) k =
      match findCount ctr k with
      | some p => some (p.1, p.2 + 1)
      | none => some (k, 1) := by
  induction ctr with
  | nil => simp [bumpCounter, findCount, List.find?]
  | cons p rest ih =>
    obtain ⟨k', n⟩ := p
    by_cases h : k' = k
    · simp [bumpCounter, findCount, List.find?, h]
    · have hbump : bumpCounter ((k', n) :: rest) k = (k', n) :: bumpCounter rest k := by
        simp only [bumpCounter]; rw [if_neg h]
      have hhead : findCount ((k', n) :: rest) k = findCount rest k :=
        List.find?_cons_of_neg _ (by simpa using h)
      have hhead2 : findCount ((k', n) :: bumpCounter rest k) k =
          findCount (bumpCounter rest k) k :=
        List.find?_cons_of_neg _ (by simpa using h)
      rw [hbump, hhead2, hhead, ih]

theorem bumpCounter_find_other (ctr : List (String × Nat)) (k q : String)
    (h : ¬ (q = k)) : findCount (bumpCounter ctr k) q = findCount ctr q := by
  induction ctr with
  | nil =>
    simp [bumpCounter, findCount, List.find?,
      show ¬ (k = q) from fun hEq => h hEq.symm]
  | cons p rest ih =>
    obtain ⟨k', n⟩ := p
    by_cases hk : k' = k
    · have hbump : bumpCounter ((k', n) :: rest) k = (k', n + 1) :: rest := by
        simp only [bumpCounter]; rw [if_pos hk]
      have hq' : ¬ (k' = q) := fun hEq => h (hEq.symm.trans hk)
      have e1 : findCount ((k', n + 1) :: rest) q = findCount rest q :=
        List.find?_cons_of_neg _ (by simpa using hq')
      have e2 : findCount ((k', n) :: rest) q = findCount rest q :=
        List.find?_cons_of_neg _ (by simpa using hq')
      rw [hbump, e1, e2]
    · have hbump : bumpCounter ((k', n) :: rest) k = (k', n) :: bumpCounter rest k := by
        simp only [bumpCounter]; rw [if_neg hk]
      rw [hbump]
      by_cases hq' : k' = q
      · have e1 : findCount ((k', n) :: bumpCounter rest k) q = some (k', n) :=
          List.find?_cons_of_pos _ (decide_eq_true hq')
        have e2 : findCount ((k', n) :: rest) q = some (k', n) :=
          List.find?_cons_of_pos _ (decide_eq_true hq')
        rw [e1, e2]
      · have e1 : findCount ((k', n) :: bumpCounter rest k) q =
            findCount (bumpCounter rest k) q :=
          List.find?_cons_of_neg _ (by simpa using hq')
        have e2 : findCount ((k', n) :: rest) q = findCount rest q :=
          List.find?_cons_of_neg _ (by simpa using hq')
        rw [e1, e2, ih]

theorem foldl_bump_find (keys : List String) :
    ∀ (ctr : List (String × Nat)) (q : String),
      findCount (keys.foldl bumpCounter ctr) q =
        match findCount ctr q with
        | some p => some (p.1, p.2 + countKey keys q)
        | none =>
          if countKey keys q = 0 then none else some (q, countKey keys q) := by
  induction keys with
  | nil =>
    intro ctr q
    cases hfc : findCount ctr q with
    | some p => obtain ⟨a, b⟩ := p; simpa [countKey] using hfc
    | none => simpa [countKey] using hfc
  | cons k keys ih =>
    intro ctr q
    simp only [List.foldl_cons]
    rw [ih (bumpCounter ctr k) q]
    by_cases hq : q = k
    · subst hq
      have hcount : countKey (q :: keys) q = countKey keys q + 1 := by
        simp [countKey, List.filter_cons, Nat.add_comm]
      rw [bumpCounter_find_self, hcount]
      cases hfc : findCount ctr q with
      | some p =>
        dsimp only
        simp only [Option.some.injEq, Prod.mk.injEq, true_and]
        omega
      | none =>
        dsimp only
        have hne : ¬ (countKey keys q + 1 = 0) := by omega
        rw [if_neg hne]
        simp only [Option.some.injEq, Prod.mk.injEq, true_and]
        omega
    · have hne : ¬ (k = q) := fun hEq => hq hEq.symm
      have hcount : countKey (k :: keys) q = countKey keys q := by
        simp [countKey, List.filter_cons, hne]
      rw [bumpCounter_find_other _ _ _ hq, hcount]

theorem counterOf_find (keys : List String) (q : String) :
    findCount (counterOf keys) q =
      if countKey keys q = 0 then none else some (q, countKey keys q) :=
  foldl_bump_find keys [] q

theorem addDetail_lookup (d : List (String × FlatRec)) (r : FlatRec) (k : String) :
    lookupDetail (addDetail d r) k =
      match lookupDetail d k with
      | some r0 => some r0
      | none => if r.key = k then some r else none := by
  by_cases han : d.any (fun p => decide (p.1 = r.key))
  · have haddeq : addDetail d r = d := by unfold addDetail; rw [if_pos han]
    rw [haddeq]
    cases hd : lookupDetail d k with
    | some r0 => rfl
    | none =>
      by_cases hrk : r.key = k
      · exfalso
        obtain ⟨p, hp, hpk⟩ := List.any_eq_true.mp han
        have hpk' : p.1 = k := (of_decide_eq_true hpk).trans hrk
        have hfind : d.find? (fun q => decide (q.1 = k)) = none :=
          Option.map_eq_none'.mp hd
        have hsome : (d.find? (fun q => decide (q.1 = k))).isSome :=
          List.find?_isSome.mpr ⟨p, hp, decide_eq_true hpk'⟩
        rw [hfind] at hsome
        exact Bool.false_ne_true hsome
      · simp [hrk]
  · have haddeq : addDetail d r = d ++ [(r.key, r)] := by
      unfold addDetail; rw [if_neg han]
    rw [haddeq]
    unfold lookupDetail
    rw [List.find?_append]
    cases hd : d.find? (fun p => decide (p.1 = k)) with
    | some p0 => rfl
    | none =>
      by_cases hrk : r.key = k
      · simp [List.find?, hrk]
      · simp [List.find?, hrk]

theorem foldl_addDetail_lookup (flat : List FlatRec) :
    ∀ (d : List (String × FlatRec)) (k : String),
      lookupDetail (flat.foldl addDetail d) k =
        match lookupDetail d k with
        | some r0 => some r0
        | none => flat.find? (fun r => decide (r.key = k)) := by
  induction flat with
  | nil =>
    intro d k
    rw [List.foldl_nil]
    cases hd : lookupDetail d k with
    | some r0 => rfl
    | none => rfl
  | cons r flat ih =>
    intro d k
    simp only [List.foldl_cons]
    rw [ih (addDetail d r) k, addDetail_lookup]
    cases hd : lookupDetail d k with
    | some r0 => rfl
    | none =>
      dsimp only
      by_cases hrk : r.key = k
      · rw [if_pos hrk]
        have e : List.find? (fun x : FlatRec => decide (x.key = k)) (r :: flat) =
            some r :=
          List.find?_cons_of_pos _ (decide_eq_true hrk)
        rw [e]
      · rw [if_neg hrk]
        have e : List.find? (fun x : FlatRec => decide (x.key = k)) (r :: flat) =
            List.find? (fun x : FlatRec => decide (x.key = k)) flat :=
          List.find?_cons_of_neg _ (by simpa using hrk)
        rw [e]

/-- The representative kept by `details.setdefault` for key `k` is the
first flattened record seen with that key. -/
theorem detailsOf_lookup (flat : List FlatRec) (k : String) :
    lookupDetail (detailsOf flat) k =
      flat.find? (fun r => decide (r.key = k)) :=
  foldl_addDetail_lookup flat [] k

theorem findCount_of_mem_nodup {ctr : List (String × Nat)} {p : String × Nat}
    (hnd : (ctr.map Prod.fst).Nodup) (hp : p ∈ ctr) :
    findCount ctr p.1 = some p := by
  induction ctr with
  | nil => cases hp
  | cons q rest ih =>
    rcases List.mem_cons.mp hp with rfl | hp'
    · exact List.find?_cons_of_pos _ (decide_eq_true rfl)
    · have hnd' := List.nodup_cons.mp hnd
      have hne : ¬ (q.1 = p.1) :=
        fun hEq => hnd'.1 (hEq ▸ List.mem_map_of_mem Prod.fst hp')
      have e : findCount (q :: rest) p.1 = findCount rest p.1 :=
        List.find?_cons_of_neg _ (by simpa using hne)
      rw [e]
      exact ih hnd'.2 hp'

/-- Every counter entry carries the exact number of occurrences of its
key, and its key occurs in the input. -/
theorem counterOf_mem_spec {keys : List String} {p : String × Nat}
    (hp : p ∈ counterOf keys) :
    p.2 = countKey keys p.1 ∧ p.1 ∈ keys := by
  have hnd : ((counterOf keys).map Prod.fst).Nodup := by
    rw [counterOf_map_fst]; exact pyDedup_nodup _
  have hf := findCount_of_mem_nodup hnd hp
  rw [counterOf_find] at hf
  by_cases h0 : countKey keys p.1 = 0
  · rw [if_pos h0] at hf; cases hf
  · rw [if_neg h0] at hf
    refine ⟨(congrArg Prod.snd (Option.some.inj hf)).symm, ?_⟩
    by_contra hmem
    apply h0
    unfold countKey
    rw [List.filter_eq_nil_iff.mpr (fun a ha => by
      simp only [decide_eq_true_eq]
      exact fun hEq => hmem (hEq ▸ ha))]
    rfl

theorem countKey_map_key (flat : List FlatRec) (k : String) :
    countKey (flat.map FlatRec.key) k =
      (flat.filter (fun r => decide (r.key = k))).length := by
  unfold countKey
  rw [List.filter_map, List.length_map]
  rfl

/-- Decomposition of a summary entry: it is built from a counter pair
`(k, count-of-k)` and the first flattened record seen with key `k`. -/
theorem summarize_mem_spec (flat : List FlatRec) (limit : Nat)
    (hkeys : ∀ r ∈ flat, r.key = r.source ++ ":" ++ r.rule) :
    ∀ e ∈ summarize_findings flat limit,
      ∃ k r, flat.find? (fun x => decide (x.key = k)) = some r ∧
        e.source = r.source ∧ e.rule = r.rule ∧ e.name = r.name ∧
        e.severity = r.severity ∧ e.location = r.location ∧
        e.description = r.description ∧
        e.count = countKey (flat.map FlatRec.key) k ∧
        e.source ++ ":" ++ e.rule = k := by
  intro e he
  unfold summarize_findings at he
  obtain ⟨p, hp, hpe⟩ := List.mem_map.mp he
  have hpc : p ∈ counterOf (flat.map FlatRec.key) := by
    have h1 : p ∈ sortDesc Prod.snd (fun a b : Nat => a ≤ b)
        (counterOf (flat.map FlatRec.key)) :=
      (List.take_sublist limit _).subset hp
    exact (sortDesc_perm _ _ _).subset h1
  obtain ⟨hcnt, hmem⟩ := counterOf_mem_spec hpc
  obtain ⟨f0, hf0, hf0k⟩ := List.mem_map.mp hmem
  have hsome : (flat.find? (fun x => decide (x.key = p.1))).isSome :=
    List.find?_isSome.mpr ⟨f0, hf0, decide_eq_true hf0k⟩
  obtain ⟨r, hr⟩ := Option.isSome_iff_exists.mp hsome
  have hrd : lookupDetail (detailsOf flat) p.1 = some r := by
    rw [detailsOf_lookup]; exact hr
  have hrkey' := List.find?_some hr
  have hrkey : r.key = p.1 := of_decide_eq_true hrkey'
  have hrm : r ∈ flat := List.mem_of_find?_eq_some hr
  refine ⟨p.1, r, hr, ?_⟩
  rw [← hpe]
  unfold entryOf
  rw [hrd]
  refine ⟨rfl, rfl, rfl, rfl, rfl, rfl, ?_, ?_⟩
  · exact hcnt
  · show r.source ++ ":" ++ r.rule = p.1
    rw [← hkeys r hrm]
    exact hrkey

/-- C2: `summarize_findings` over `flatten_findings` keys returns at most
`min limit #distinct-keys` entries, ordered by occurrence count
descending with ties kept in first-seen key order (the counter is in
first-seen order and the sort preserves each per-count subsequence);
each entry's count is the number of findings sharing its
`source:rule` key; and re-running on the same input gives the identical
result. -/
theorem c2_recurring_issues (findings : List Finding) (limit : Nat) :
    (summarize_findings (flatten_findings findings) limit).length ≤
      min limit (pyDedup ((flatten_findings findings).map FlatRec.key)).length ∧
    (counterOf ((flatten_findings findings).map FlatRec.key)).map Prod.fst =
      pyDedup ((flatten_findings findings).map FlatRec.key) ∧
    (summarize_findings (flatten_findings findings) limit).Pairwise
      (fun a b => b.count ≤ a.count) ∧
    (∀ n : Nat,
      (sortDesc Prod.snd (fun a b : Nat => a ≤ b)
          (counterOf ((flatten_findings findings).map FlatRec.key))).filter
          (fun p => decide (p.2 = n)) =
        (counterOf ((flatten_findings findings).map FlatRec.key)).filter
          (fun p => decide (p.2 = n))) ∧
    (∀ e ∈ summarize_findings (flatten_findings findings) limit,
      e.count = ((flatten_findings findings).filter
        (fun r => decide (r.key = e.source ++ ":" ++ e.rule))).length) ∧
    summarize_findings (flatten_findings findings) limit =
      summarize_findings (flatten_findings findings) limit := by
  have hkeys : ∀ r ∈ flatten_findings findings,
      r.key = r.source ++ ":" ++ r.rule := by
    intro r hr
    obtain ⟨f, _, rfl⟩ := List.mem_map.mp hr
    rfl
  refine ⟨?_, counterOf_map_fst _, ?_, ?_, ?_, rfl⟩
  · unfold summarize_findings mostCommon
    rw [List.length_map, List.length_take,
      (sortDesc_perm Prod.snd (fun a b : Nat => a ≤ b) _).length_eq]
    have hlen : (counterOf ((flatten_findings findings).map FlatRec.key)).length =
        (pyDedup ((flatten_findings findings).map FlatRec.key)).length := by
      rw [← counterOf_map_fst, List.length_map]
    rw [hlen]
  · unfold summarize_findings
    have hsorted : (mostCommon
        (counterOf ((flatten_findings findings).map FlatRec.key)) limit).Pairwise
        (fun p q : String × Nat => q.2 ≤ p.2) :=
      (sortDesc_pairwise Prod.snd (fun a b : Nat => a ≤ b)
        Nat.le_total (fun _ _ _ => Nat.le_trans) _).sublist
          (List.take_sublist limit _)
    exact hsorted.map (entryOf (flatten_findings findings)) (fun p q h => h)
  · intro n
    exact sortDesc_filter Prod.snd (fun a b : Nat => a ≤ b) Nat.le_total _ n
  · intro e he
    obtain ⟨k, r, _, _, _, _, _, _, _, hcount, hk⟩ :=
      summarize_mem_spec (flatten_findings findings) limit hkeys e he
    rw [hcount, hk, countKey_map_key]

/-- Witness for C2 at the concrete findings list: the top entry for the
duplicated key `ZAP:X` has count 2 = number of findings sharing it, and
the output size respects the bound. -/
theorem c2_recurring_issues_witness :
    (TuningEntry.mk "ZAP" "X" "X" 2 "High" "http://a" "d").count =
      ((flatten_findings demoFindings).filter
        (fun r => decide (r.key = "ZAP" ++ ":" ++ "X"))).length ∧
    (summarize_findings (flatten_findings demoFindings) 2).length ≤
      min 2 (pyDedup ((flatten_findings demoFindings).map FlatRec.key)).length := by
  obtain ⟨hlen, _, _, _, hcount, _⟩ := c2_recurring_issues demoFindings 2
  exact ⟨hcount _ (by decide), hlen⟩

/-- Second finding with the same `(source, rule)` key as `demoF1` but a
different location, seen later in the run. -/
def demoG2 : Finding := { demoF1 with location := "http://b" }

/-- Counterexample to C8 as stated: for the run `[demoF1, demoG2]`, both
findings share the key `ZAP:X`; the tuning record kept for that key
carries the location of the FIRST finding (`demoF1`, `http://a`), not of
the most recent one (`demoG2`, `http://b`), because
`details.setdefault(key, finding)` keeps the first-seen record. -/
theorem c8_counterexample :
    (summarize_findings (flatten_findings [demoF1, demoG2]) 3).map
        TuningEntry.location = ["http://a"] ∧
    demoG2.location = "http://b" ∧ ("http://a" : String) ≠ "http://b" := by
  refine ⟨by decide, rfl, by decide⟩

/-- C8 amended: the tuning record kept for each `(source, rule)` key
holds, as its representative, the FIRST finding seen with that key
(`details.setdefault` keeps the first record), together with the key's
occurrence count across the run. -/
theorem c8_tuning_representative (findings : List Finding) (limit : Nat) :
    ∀ e ∈ summarize_findings (flatten_findings findings) limit,
      ∃ k r,
        (flatten_findings findings).find? (fun x => decide (x.key = k)) = some r ∧
        e.source = r.source ∧ e.rule = r.rule ∧ e.name = r.name ∧
        e.severity = r.severity ∧ e.location = r.location ∧
        e.description = r.description ∧
        e.count = ((flatten_findings findings).filter
          (fun x => decide (x.key = k))).length := by
  intro e he
  have hkeys : ∀ r ∈ flatten_findings findings,
      r.key = r.source ++ ":" ++ r.rule := by
    intro r hr
    obtain ⟨f, _, rfl⟩ := List.mem_map.mp hr
    rfl
  obtain ⟨k, r, hfind, h1, h2, h3, h4, h5, h6, hcount, _⟩ :=
    summarize_mem_spec (flatten_findings findings) limit hkeys e he
  exact ⟨k, r, hfind, h1, h2, h3, h4, h5, h6,
    by rw [hcount, countKey_map_key]⟩

/-- Witness for the amended C8 at the concrete run: the top entry for
key `ZAP:X` is decomposed by the theorem (its representative is the
first matching record). -/
theorem c8_tuning_representative_witness :
    ∃ k r,
      (flatten_findings demoFindings).find? (fun x => decide (x.key = k)) = some r ∧
      (TuningEntry.mk "ZAP" "X" "X" 2 "High" "http://a" "d").source = r.source ∧
      (TuningEntry.mk "ZAP" "X" "X" 2 "High" "http://a" "d").rule = r.rule ∧
      (TuningEntry.mk "ZAP" "X" "X" 2 "High" "http://a" "d").name = r.name ∧
      (TuningEntry.mk "ZAP" "X" "X" 2 "High" "http://a" "d").severity = r.severity ∧
      (TuningEntry.mk "ZAP" "X" "X" 2 "High" "http://a" "d").location = r.location ∧
      (TuningEntry.mk "ZAP" "X" "X" 2 "High" "http://a" "d").description = r.description ∧
      (TuningEntry.mk "ZAP" "X" "X" 2 "High" "http://a" "d").count =
        ((flatten_findings demoFindings).filter
          (fun x => decide (x.key = k))).length :=
  c8_tuning_representative demoFindings 2 _ (by decide)

/-! ## Parser error handling (C3, C7) -/

/-- Counterexample to C3 as stated: `parse_zap_report` on an existing
but empty report file raises — `json.load` fails on empty content —
rather than returning the empty list. -/
theorem c3_counterexample :
    parse_zap_report (some "") = Except.error PyErr.jsonDecodeError := by
  rfl

/-- C3 amended: both parsers return `[]` without raising when the file
does not exist; `parse_nuclei_report` also returns `[]` when the file
exists but its (stripped) content is empty; `parse_zap_report`, however,
raises a JSON decode error on an existing empty file. -/
theorem c3_missing_and_empty_files :
    parse_zap_report none = Except.ok [] ∧
    parse_nuclei_report none = Except.ok [] ∧
    (∀ raw : String, pyStrip raw = "" →
      parse_nuclei_report (some raw) = Except.ok []) ∧
    parse_zap_report (some "") = Except.error PyErr.jsonDecodeError := by
  refine ⟨rfl, rfl, ?_, rfl⟩
  intro raw hraw
  simp [parse_nuclei_report, hraw]

/-- Witness for the amended C3: a whitespace-only nuclei report file
strips to empty and yields the empty finding list. -/
theorem c3_missing_and_empty_files_witness :
    pyStrip "  \n" = "" ∧ parse_nuclei_report (some "  \n") = Except.ok [] :=
  ⟨by decide, c3_missing_and_empty_files.2.2.1 "  \n" (by decide)⟩

/-- A Python `str.split()` result is empty exactly when the string has
no non-whitespace character. -/
theorem pySplitAux_eq_nil_iff (cs : List Char) :
    ∀ cur : List Char,
      pySplitAux cs cur = [] ↔ (cur = [] ∧ ∀ c ∈ cs, pyIsSpace c) := by
  induction cs with
  | nil =>
    intro cur
    unfold pySplitAux
    by_cases hc : cur.isEmpty
    · simp [hc, List.isEmpty_iff.mp hc]
    · have hne : ¬ cur = [] := fun h => hc (List.isEmpty_iff.mpr h)
      simp [hc, hne]
  | cons c rest ih =>
    intro cur
    unfold pySplitAux
    by_cases hsp : pyIsSpace c
    · rw [if_pos hsp]
      by_cases hc : cur.isEmpty
      · rw [if_pos hc, ih]
        simp [List.isEmpty_iff.mp hc, hsp]
      · simp only [if_neg hc]
        constructor
        · intro h; cases h
        · rintro ⟨hcur, _⟩
          exact absurd (List.isEmpty_iff.mpr hcur) hc
    · rw [if_neg hsp, ih]
      simp [hsp]

theorem pySplit_eq_nil_iff (s : String) :
    pySplit s = [] ↔ ∀ c ∈ s.data, pyIsSpace c := by
  unfold pySplit
  rw [pySplitAux_eq_nil_iff]
  simp

/-- Counterexample to C7 as stated: a ZAP report whose alert carries an
all-whitespace `riskdesc` makes the parser raise `IndexError`
(`"".split()[0]` / `" ".split()[0]` index an empty list), end to end
from the raw report text. -/
theorem c7_counterexample :
    parse_zap_report
        (some "\x7b\"site\":[\x7b\"alerts\":[\x7b\"riskdesc\":\" \"\x7d]\x7d]\x7d") =
      Except.error PyErr.indexError := by
  rfl

/-- C7 amended: for every (dict) alert, the severity extraction
`alert.get("riskdesc", "INFO").split()[0].upper()` yields `INFO` when
`riskdesc` is absent and the first whitespace-delimited token
upper-cased when there is one, but RAISES `IndexError` when `riskdesc`
is a string that is empty or all whitespace (exactly when `split()`
yields no token); the record construction carries this extraction
faithfully: a finding returned for the alert has the extracted severity,
and an extraction exception is the alert's result (the later instance
handling can itself raise on malformed `instances`, so a successful
extraction alone does not guarantee a returned finding). -/
theorem c7_severity_extraction (fields : List (String × JVal)) :
    (jget (JVal.obj fields) "riskdesc" = none →
      zapSeverity (JVal.obj fields) = Except.ok "INFO") ∧
    (∀ s : String, jget (JVal.obj fields) "riskdesc" = some (JVal.str s) →
      (pySplit s = [] →
        zapSeverity (JVal.obj fields) = Except.error PyErr.indexError) ∧
      (∀ t rest, pySplit s = t :: rest →
        zapSeverity (JVal.obj fields) = Except.ok (pyUpper t))) ∧
    (∀ s : String, pySplit s = [] ↔ ∀ c ∈ s.data, pyIsSpace c) ∧
    (∀ f : Finding, zapAlertFinding (JVal.obj fields) = Except.ok f →
      zapSeverity (JVal.obj fields) = Except.ok f.severity) ∧
    (∀ e : PyErr, zapSeverity (JVal.obj fields) = Except.error e →
      zapAlertFinding (JVal.obj fields) = Except.error e) := by
  refine ⟨?_, ?_, pySplit_eq_nil_iff, ?_, ?_⟩
  · intro h
    unfold zapSeverity
    dsimp only
    rw [h]
  · intro s hs
    constructor
    · intro hsplit
      unfold zapSeverity
      dsimp only
      rw [hs]
      dsimp only
      rw [hsplit]
    · intro t rest hsplit
      unfold zapSeverity
      dsimp only
      rw [hs]
      dsimp only
      rw [hsplit]
  · intro f hf
    unfold zapAlertFinding at hf
    cases hsev : zapSeverity (JVal.obj fields) with
    | error e =>
      rw [hsev] at hf
      cases hf
    | ok sev =>
      rw [hsev] at hf
      cases hinst : zapInstancesPlan (jget (JVal.obj fields) "instances") with
      | error e =>
        rw [hinst] at hf
        cases hf
      | ok pr =>
        rw [hinst] at hf
        injection hf with hrec
        rw [← hrec]
  · intro e he
    unfold zapAlertFinding
    rw [he]
    rfl

/-- The concrete alert and its parsed finding used by the C7 witness. -/
def demoAlertFields : List (String × JVal) :=
  [("riskdesc", JVal.str "Medium (High)")]

def demoAlertFinding : Finding :=
  { source := "ZAP", name := "Unknown", severity := "MEDIUM",
    description := "", solution := "", location := "Unknown",
    scanner := "ZAP", instances := some 0 }

/-- Witness for the amended C7 at concrete alerts: severity defaults to
INFO with no `riskdesc`, becomes `MEDIUM` for `"Medium (High)"`, the
all-whitespace `riskdesc` raises, the returned finding carries the
extracted severity, and the extraction exception propagates to the
alert's result. -/
theorem c7_severity_extraction_witness :
    zapSeverity (JVal.obj []) = Except.ok "INFO" ∧
    zapSeverity (JVal.obj demoAlertFields) = Except.ok (pyUpper "Medium") ∧
    zapSeverity (JVal.obj [("riskdesc", JVal.str " ")]) =
      Except.error PyErr.indexError ∧
    zapSeverity (JVal.obj demoAlertFields) =
      Except.ok demoAlertFinding.severity ∧
    zapAlertFinding (JVal.obj [("riskdesc", JVal.str " ")]) =
      Except.error PyErr.indexError := by
  refine ⟨(c7_severity_extraction []).1 rfl,
    ((c7_severity_extraction demoAlertFields).2.1
      "Medium (High)" rfl).2 "Medium" ["(High)"] (by decide),
    ((c7_severity_extraction [("riskdesc", JVal.str " ")]).2.1
      " " rfl).1 (by decide),
    (c7_severity_extraction demoAlertFields).2.2.2.1 demoAlertFinding rfl,
    (c7_severity_extraction [("riskdesc", JVal.str " ")]).2.2.2.2
      PyErr.indexError
      (((c7_severity_extraction [("riskdesc", JVal.str " ")]).2.1
        " " rfl).1 (by decide))⟩

/-! ## Policy client: `opa_utils.run_opa` (C4) and the persisted
evaluation artifact of `risk-evaluator.main` (C10)

The response document is modelled post-`json.loads`, at the shape the
code inspects: `{"result": [{"expressions": [{"value": {...}}]}]}`.
The verdict value is the partial mapping the policy returns. -/

/-- The `value` object of the policy response: all fields optional. -/
structure VerdictDoc where
  status : Option String := none
  risk_score : Option Int := none
  severity_counts : Option (List (String × Nat)) := none
  violations : Option (List String) := none
  recommendations : Option (List String) := none
deriving Repr, DecidableEq

/-- One element of the `expressions` list. -/
structure OpaExprItem where
  value : Option VerdictDoc := none
deriving Repr, DecidableEq

/-- One element of the `result` list. -/
structure OpaResultItem where
  expressions : Option (List OpaExprItem) := none
deriving Repr, DecidableEq

/-- The parsed OPA response document. -/
structure OpaResponse where
  result : Option (List OpaResultItem) := none
deriving Repr, DecidableEq

/-- The `{}` default of `exprs[0].get("value", {})`. -/
def emptyVerdictDoc : VerdictDoc := {}

/-- Model of the response-shape handling of `run_opa`:
`parsed.get("result", [])` must be non-empty, its head's
`.get("expressions", [])` must be non-empty, and then
`exprs[0].get("value", {})` is RETURNED — a missing `value` silently
degrades to the empty dict instead of raising. -/
def run_opa (resp : OpaResponse) : Except String VerdictDoc :=
  match resp.result.getD [] with
  | [] => Except.error "OPA did not return an evaluation result"
  | r0 :: _ =>
    match r0.expressions.getD [] with
    | [] => Except.error "OPA response is missing expressions"
    | e0 :: _ => Except.ok (e0.value.getD emptyVerdictDoc)

/-- Counterexample to C4 as stated: a response whose expression has no
`value` field does NOT raise; `run_opa` returns the empty verdict
mapping. -/
theorem c4_counterexample :
    run_opa { result := some [{ expressions := some [{ value := none }] }] } =
      Except.ok emptyVerdictDoc := rfl

/-- C4 amended: a missing or empty `result` list and a missing or empty
`expressions` list each raise a distinct fatal error, but a missing
`value` does not raise — the empty verdict mapping is returned (callers
then fail closed through their `.get` defaults). -/
theorem c4_response_shape (resp : OpaResponse) :
    ((resp.result = none ∨ resp.result = some []) →
      run_opa resp = Except.error "OPA did not return an evaluation result") ∧
    (∀ r0 rest, resp.result = some (r0 :: rest) →
      (r0.expressions = none ∨ r0.expressions = some []) →
      run_opa resp = Except.error "OPA response is missing expressions") ∧
    (∀ r0 rest e0 erest, resp.result = some (r0 :: rest) →
      r0.expressions = some (e0 :: erest) →
      run_opa resp = Except.ok (e0.value.getD emptyVerdictDoc)) ∧
    (∀ r0 rest e0 erest, resp.result = some (r0 :: rest) →
      r0.expressions = some (e0 :: erest) → e0.value = none →
      run_opa resp = Except.ok emptyVerdictDoc) ∧
    ("OPA did not return an evaluation result" ≠
      "OPA response is missing expressions") := by
  refine ⟨?_, ?_, ?_, ?_, by decide⟩
  · rintro (h | h) <;> simp [run_opa, h]
  · rintro r0 rest h (h2 | h2) <;> simp [run_opa, h, h2]
  · intro r0 rest e0 erest h h2
    simp [run_opa, h, h2]
  · intro r0 rest e0 erest h h2 h3
    simp [run_opa, h, h2, h3]

/-- Witness for the amended C4 at concrete responses: each missing layer
behaves as stated. -/
theorem c4_response_shape_witness :
    run_opa { result := none } =
      Except.error "OPA did not return an evaluation result" ∧
    run_opa { result := some [] } =
      Except.error "OPA did not return an evaluation result" ∧
    run_opa { result := some [{ expressions := none }] } =
      Except.error "OPA response is missing expressions" ∧
    run_opa { result := some [{ expressions := some [] }] } =
      Except.error "OPA response is missing expressions" ∧
    run_opa { result := some [{ expressions := some [{ value := none }] }] } =
      Except.ok emptyVerdictDoc := by
  refine ⟨(c4_response_shape _).1 (Or.inl rfl),
    (c4_response_shape _).1 (Or.inr rfl),
    (c4_response_shape _).2.1 _ [] rfl (Or.inl rfl),
    (c4_response_shape _).2.1 _ [] rfl (Or.inr rfl),
    (c4_response_shape _).2.2.2.1 _ [] _ [] rfl rfl rfl⟩

/-- The persisted evaluation artifact written by `risk-evaluator.main`. -/
structure EvalArtifact where
  app_name : String
  status : String
  risk_score : Int
  severity_counts : List (String × Nat)
  total_findings : Nat
  findings : List Finding
  violations : List String
  recommendations : List String
  policy_reference : String
  analysis_time : String
deriving Repr, DecidableEq

/-- Model of the `final_output` dict construction in
`risk-evaluator.main`. -/
def build_final_output (app_name : String) (evaluation : VerdictDoc)
    (findings : List Finding) (policy_reference analysis_time : String) :
    EvalArtifact :=
  { app_name := app_name
    status := evaluation.status.getD "FAIL"
    risk_score := evaluation.risk_score.getD 0
    severity_counts := evaluation.severity_counts.getD []
    total_findings := findings.length
    findings := findings
    violations := evaluation.violations.getD []
    recommendations := evaluation.recommendations.getD []
    policy_reference := policy_reference
    analysis_time := analysis_time }

/-- C10: the persisted artifact fails closed on missing verdict fields —
absent `status` records `FAIL`, absent `risk_score` records 0, absent
`severity_counts` an empty mapping, absent `violations` and
`recommendations` empty lists — and `total_findings` always equals the
length of the parsed findings list. -/
theorem c10_artifact_fail_closed (app_name : String) (evaluation : VerdictDoc)
    (findings : List Finding) (pref atime : String) :
    (evaluation.status = none →
      (build_final_output app_name evaluation findings pref atime).status = "FAIL") ∧
    (evaluation.risk_score = none →
      (build_final_output app_name evaluation findings pref atime).risk_score = 0) ∧
    (evaluation.severity_counts = none →
      (build_final_output app_name evaluation findings pref atime).severity_counts = []) ∧
    (evaluation.violations = none →
      (build_final_output app_name evaluation findings pref atime).violations = []) ∧
    (evaluation.recommendations = none →
      (build_final_output app_name evaluation findings pref atime).recommendations = []) ∧
    (build_final_output app_name evaluation findings pref atime).total_findings =
      findings.length := by
  refine ⟨?_, ?_, ?_, ?_, ?_, rfl⟩ <;>
    (intro h; simp [build_final_output, h])

/-- Witness for C10: the all-absent verdict yields the fail-closed
artifact on the demo findings. -/
theorem c10_artifact_fail_closed_witness :
    (build_final_output "app" {} demoFindings "p" "t").status = "FAIL" ∧
    (build_final_output "app" {} demoFindings "p" "t").risk_score = 0 ∧
    (build_final_output "app" {} demoFindings "p" "t").severity_counts = [] ∧
    (build_final_output "app" {} demoFindings "p" "t").violations = [] ∧
    (build_final_output "app" {} demoFindings "p" "t").recommendations = [] ∧
    (build_final_output "app" {} demoFindings "p" "t").total_findings =
      demoFindings.length := by
  obtain ⟨h1, h2, h3, h4, h5, h6⟩ :=
    c10_artifact_fail_closed "app" {} demoFindings "p" "t"
  exact ⟨h1 rfl, h2 rfl, h3 rfl, h4 rfl, h5 rfl, h6⟩

/-! ## Regression guard: `regression-guard.py` (C6) -/

/-- Outcome of one `regression-guard` run: a normal exit after the skip
message, a normal exit after the pass message, or `sys.exit(1)`. -/
inductive GuardOutcome where
  | skipped
  | passed
  | fatal
deriving Repr, DecidableEq

/-- An evaluation document as read by `load_eval`; only `risk_score` is
consulted, via `.get("risk_score", 0)`. -/
structure EvalScore where
  risk_score : Option Int := none
deriving Repr, DecidableEq

/-- Model of `regression-guard.main` after argument parsing: `previous`
is `none` when loading the previous evaluation raises
`FileNotFoundError`. -/
def regression_guard (current : EvalScore) (previous : Option EvalScore)
    (threshold : Int) : GuardOutcome :=
  match previous with
  | none => GuardOutcome.skipped
  | some prev =>
    if current.risk_score.getD 0 - prev.risk_score.getD 0 > threshold then
      GuardOutcome.fatal
    else GuardOutcome.passed

/-- Counterexample to C6 as stated: with the (argparse-accepted)
threshold `-1` and a zero delta, the guard exits fatally even though the
delta is not positive — `0 > -1`. -/
theorem c6_counterexample :
    (EvalScore.mk (some 0)).risk_score.getD 0 -
        (EvalScore.mk (some 0)).risk_score.getD 0 ≤ 0 ∧
    regression_guard (EvalScore.mk (some 0)) (some (EvalScore.mk (some 0))) (-1) =
      GuardOutcome.fatal := by
  exact ⟨by decide, by decide⟩

/-- C6 amended: the check skips (a success outcome) when the previous
evaluation is absent; it is fatal exactly when `current − previous`
exceeds the threshold; and — provided the threshold is nonnegative — it
is never fatal when the delta is zero or negative. -/
theorem c6_regression_guard (current : EvalScore) (previous : Option EvalScore)
    (threshold : Int) :
    (previous = none →
      regression_guard current previous threshold = GuardOutcome.skipped ∧
      regression_guard current previous threshold ≠ GuardOutcome.fatal) ∧
    (∀ prev, previous = some prev →
      (regression_guard current previous threshold = GuardOutcome.fatal ↔
        current.risk_score.getD 0 - prev.risk_score.getD 0 > threshold)) ∧
    (0 ≤ threshold → ∀ prev, previous = some prev →
      current.risk_score.getD 0 - prev.risk_score.getD 0 ≤ 0 →
      regression_guard current previous threshold ≠ GuardOutcome.fatal) := by
  refine ⟨?_, ?_, ?_⟩
  · intro h
    rw [h]
    exact ⟨rfl, fun hc => by cases hc⟩
  · intro prev h
    rw [h]
    unfold regression_guard
    dsimp only
    by_cases hgt : current.risk_score.getD 0 - prev.risk_score.getD 0 > threshold
    · rw [if_pos hgt]
      exact ⟨fun _ => hgt, fun _ => rfl⟩
    · rw [if_neg hgt]
      exact ⟨(fun hc => by cases hc), fun hg => absurd hg hgt⟩
  · intro hth prev h hdelta
    rw [h]
    unfold regression_guard
    dsimp only
    rw [if_neg (by omega)]
    exact fun hc => by cases hc

/-- Witness for the amended C6 at the spec's own numbers: scores 10/4
with threshold 5 exit fatally (delta 6), scores 10/8 with threshold 5
pass (delta 2), and an absent previous evaluation skips. -/
theorem c6_regression_guard_witness :
    regression_guard (EvalScore.mk (some 10)) (some (EvalScore.mk (some 4))) 5 =
      GuardOutcome.fatal ∧
    regression_guard (EvalScore.mk (some 10)) (some (EvalScore.mk (some 8))) 5 ≠
      GuardOutcome.fatal ∧
    regression_guard (EvalScore.mk (some 10)) none 5 = GuardOutcome.skipped := by
  refine ⟨?_, ?_, ?_⟩
  · exact ((c6_regression_guard (EvalScore.mk (some 10))
      (some (EvalScore.mk (some 4))) 5).2.1 _ rfl).mpr (by decide)
  · intro hc
    exact absurd (((c6_regression_guard (EvalScore.mk (some 10))
      (some (EvalScore.mk (some 8))) 5).2.1 _ rfl).mp hc) (by decide)
  · exact ((c6_regression_guard (EvalScore.mk (some 10)) none 5).1 rfl).1

/-! ## Report renderer: `report-generator.py` (C5, C9)

The verdict read from the evaluation artifact.  The claims quantify over
verdicts whose `severity_counts` mapping contains all five severity
keys; such mappings are represented exactly by the five-field
structure.  The other fields are those the artifact always carries. -/

structure SeverityCounts where
  CRITICAL : Nat
  HIGH : Nat
  MEDIUM : Nat
  LOW : Nat
  INFO : Nat
deriving Repr, DecidableEq

structure ReportData where
  app_name : String
  status : String
  risk_score : Int
  severity_counts : SeverityCounts
  total_findings : Nat
  findings : List Finding
  violations : List String
  recommendations : List String
  policy_reference : Option String := none
deriving Repr, DecidableEq

/-- Tuning summary loaded from the tuning artifact (`load_tuning_data`
returns `None` for an absent path or file, modelled by `Option`). -/
structure TuningData where
  generated_at : Option String := none
  top_findings : List TuningEntry := []
  violations : List String := []
  recommendations : List String := []
deriving Repr, DecidableEq

/-- Model of `generate_status_badge`: three fixed strings, anything else
renders literally as `UNKNOWN STATUS`. -/
def generate_status_badge (status : String) : String :=
  if status = "PASS" then "**PASS** - No critical issues detected"
  else if status = "WARN" then "**WARN** - Review recommended"
  else if status = "FAIL" then "**FAIL** - Critical issues detected"
  else "UNKNOWN STATUS"

/-- Model of `generate_status_message`. -/
def generate_status_message (data : ReportData)
    (storage_url artifacts_url : Option String) : String :=
  let first :=
    if data.status = "FAIL" then
      toString data.severity_counts.CRITICAL ++ " critical and " ++
        toString data.severity_counts.HIGH ++
        " high severity findings are blocking a merge (risk score " ++
        toString data.risk_score ++ ")."
    else if data.status = "WARN" then
      toString data.severity_counts.MEDIUM ++
        " medium severity findings triggered a WARN state (risk score " ++
        toString data.risk_score ++ ")."
    else "Status is PASS with risk score " ++ toString data.risk_score ++ "."
  let fragments :=
    [first]
    ++ (if data.violations ≠ [] then
          ["Violations: " ++ ", ".intercalate data.violations ++ "."] else [])
    ++ (if data.recommendations ≠ [] then
          ["Automatic guidance: " ++ ", ".intercalate data.recommendations ++ "."]
        else [])
    ++ ["Consult `reports/evaluation.json` and `" ++
          data.policy_reference.getD "policies/severity-rules.rego" ++
          "` for the underlying data, and adjust thresholds if needed."]
    ++ (if truthyO storage_url then
          ["Reports are stored at " ++ storage_url.getD "" ++ "."]
        else if truthyO artifacts_url then
          ["Workflow artifacts are available at " ++ artifacts_url.getD "" ++ "."]
        else [])
  " ".intercalate fragments

/-- One numbered block of the critical/high spotlight, with the 150
character truncation and ellipsis marker. -/
def criticalHighdetail (i : Nat) (f : Finding) : String :=
  "\n**" ++ toString i ++ ". [" ++ f.severity ++ "] " ++ f.name ++
    "**\n- **Source:** " ++ f.source ++
    "\n- **Description:** " ++ f.description.take 150 ++
    "...\n- **Solution:** " ++ f.solution.take 150 ++ "...\n"

/-- Model of `generate_critical_high_details`. -/
def generate_critical_high_details (findings : List Finding) : String :=
  let critical_high := findings.filter
    (fun f => f.severity = "CRITICAL" || f.severity = "HIGH")
  if critical_high.isEmpty then "_No critical or high severity findings._"
  else
    let details := (critical_high.take 5).enum.map
      (fun p => criticalHighdetail (p.1 + 1) p.2)
    let details :=
      if critical_high.length > 5 then
        details ++ ["\n_... and " ++ toString (critical_high.length - 5) ++
          " more. See full report in artifacts._"]
      else details
    "\n".intercalate details

/-- The three fixed operational bullets always appended by
`generate_recommendations`. -/
def fixedBullets : List String :=
  ["- Inspect `reports/evaluation.json` to understand which rule produced each recommendation.",
   "- Tune `configs/zap-config.conf`, `configs/nuclei-templates.yaml`, or `policies/severity-rules.rego` when findings are expected noise.",
   "- Harden the affected routes (request validation, auth checks, headers) and rerun the scan to collapse recurrent findings."]

/-- The bullet list of `generate_recommendations`:
`list(dict.fromkeys(recommendations))` deduplicates in first-seen order;
when it is non-empty those bullets are rendered, otherwise synthesized
bullets conditioned on the severity buckets; the three fixed bullets are
always appended. -/
def recommendationBullets (data : ReportData) : List String :=
  let recommendations := pyDedup data.recommendations
  let medium_threshold : Nat := 3
  (if recommendations ≠ [] then
    recommendations.map (fun rec => "- " ++ rec)
  else
    (if data.severity_counts.CRITICAL > 0 ∨ data.severity_counts.HIGH > 0 then
      ["- Resolve the critical/high severity findings and rerun the scan to confirm they are gone."]
    else [])
    ++ (if data.severity_counts.MEDIUM > 0 then
      ["- Reduce the " ++ toString data.severity_counts.MEDIUM ++
        " medium findings keeping the risk score above " ++
        toString (medium_threshold * 4) ++ " (" ++ toString data.risk_score ++ ")."]
    else [])
    ++ (if data.severity_counts.CRITICAL + data.severity_counts.HIGH +
          data.severity_counts.MEDIUM + data.severity_counts.LOW +
          data.severity_counts.INFO = 0 then
      ["- Keep scanning on every change to catch regressions early."]
    else []))
  ++ fixedBullets

/-- Model of `generate_recommendations`. -/
def generate_recommendations (data : ReportData) : String :=
  "\n".intercalate (recommendationBullets data)

/-- Python `url.rstrip("/")`. -/
def pyRstripSlash (s : String) : String :=
  ⟨(s.data.reverse.dropWhile (fun c => c = '/')).reverse⟩

/-- Model of `generate_artifact_summary` (storage path wins over the
generic artifacts URL; both absent degrades to a fixed sentence). -/
def generate_artifact_summary (artifacts_url storage_url : Option String) : String :=
  if truthyO storage_url then
    let base := pyRstripSlash (storage_url.getD "")
    "- [Download ZAP JSON](" ++ base ++ "/zap-report.json)\n" ++
    "- [Download ZAP HTML](" ++ base ++ "/zap-report.html)\n" ++
    "- [Download Nuclei JSON](" ++ base ++ "/nuclei-report.json)\n" ++
    "- [Download OPA evaluation](" ++ base ++ "/evaluation.json)"
  else if truthyO artifacts_url then
    "- [Open the workflow artifacts page](" ++ artifacts_url.getD "" ++
    ") (select the bundle for the latest run)\n" ++
    "- ZAP report: `zap-report.json`, `zap-report.html` (on the artifacts page)\n" ++
    "- Nuclei report: `nuclei-report.json`\n" ++
    "- OPA evaluation: `evaluation.json`"
  else
    "- Full ZAP/Nuclei/evaluation artifacts are attached to the workflow run for deeper inspection."

/-- Model of `generate_tuning_section`: absent tuning data degrades to
an explicit placeholder line. -/
def generate_tuning_section (tuning : Option TuningData) : String :=
  match tuning with
  | none => "- No automated tuning guidance is available yet."
  | some td =>
    let lines := ["Generated at " ++ td.generated_at.getD "unknown"]
    let lines :=
      if td.top_findings.isEmpty then
        lines ++ ["- No high-frequency findings to tune."]
      else
        lines ++ td.top_findings.enum.map (fun p =>
          "- **" ++ toString (p.1 + 1) ++ ".** " ++ p.2.source ++ " rule " ++
            p.2.rule ++ " hit " ++ toString p.2.count ++ " times (severity " ++
            p.2.severity ++ ").")
    let lines :=
      if td.violations ≠ [] then
        lines ++ ["", "Violations:"] ++ td.violations.map (fun v => "- " ++ v)
      else lines
    let lines :=
      if td.recommendations ≠ [] then
        lines ++ ["", "Recommendations:"] ++
          td.recommendations.map (fun r => "- " ++ r)
      else lines
    "\n".intercalate lines

/-- The fixed markdown section headers of `TEMPLATE`. -/
def sectionHeaders : List String :=
  ["## DAST Security Scan Report", "### Issue snapshot",
   "### What should happen now?", "### Critical / High findings in focus",
   "### Attack surface highlights", "### Recommended next steps",
   "### Automated tuning guidance", "### Artifacts"]

/-- The fragments of `TEMPLATE.format(...)`, in order; concatenating
them is exactly the rendered document, and each fixed section header
appears as one fragment. -/
def reportFragments (data : ReportData) (scan_date : String)
    (storage_url artifacts_url : Option String)
    (tuning : Option TuningData) : List String :=
  ["\n", "## DAST Security Scan Report", "\n\n**Application:** ", data.app_name,
   "  \n**Current verdict:** ", generate_status_badge data.status,
   "  \n**Scan time (UTC):** ", scan_date,
   "  \n**Calculated risk score:** ", toString data.risk_score,
   "\n\n---\n\n", "### Issue snapshot",
   "\n\n| Severity | Count |\n|----------|-------|\n| Critical | ",
   toString data.severity_counts.CRITICAL,
   " |\n| High | ", toString data.severity_counts.HIGH,
   " |\n| Medium | ", toString data.severity_counts.MEDIUM,
   " |\n| Low | ", toString data.severity_counts.LOW,
   " |\n| Info | ", toString data.severity_counts.INFO,
   " |\n\n**Total constructive findings:** ", toString data.total_findings,
   "\n\n---\n\n", "### What should happen now?", "\n\n",
   generate_status_message data storage_url artifacts_url,
   "\n\n---\n\n", "### Critical / High findings in focus", "\n\n",
   generate_critical_high_details data.findings,
   "\n\n---\n\n", "### Attack surface highlights", "\n\n",
   generate_attack_surface data.findings,
   "\n\n---\n\n", "### Recommended next steps", "\n\n",
   generate_recommendations data,
   "\n\n---\n\n", "### Automated tuning guidance", "\n\n",
   generate_tuning_section tuning,
   "\n\n---\n\n", "### Artifacts", "\n\n",
   generate_artifact_summary artifacts_url storage_url, "\n"]

/-- The rendered report of `main`: `TEMPLATE.format(...)` as the
concatenation of its fragments.  All involved functions are total: no
combination of inputs raises. -/
def renderReport (data : ReportData) (scan_date : String)
    (storage_url artifacts_url : Option String)
    (tuning : Option TuningData) : String :=
  joinStr (reportFragments data scan_date storage_url artifacts_url tuning)

/-- Any fragment of a fragment list is a substring (with explicit
context) of the joined document. -/
theorem joinStr_split {l : List String} {h : String} (hm : h ∈ l) :
    ∃ p q, joinStr l = p ++ (h ++ q) := by
  induction l with
  | nil => cases hm
  | cons a t ih =>
    rcases List.mem_cons.mp hm with rfl | hm'
    · exact ⟨"", joinStr t, rfl⟩
    · obtain ⟨p, q, hpq⟩ := ih hm'
      refine ⟨a ++ p, q, ?_⟩
      show a ++ joinStr t = (a ++ p) ++ (h ++ q)
      rw [hpq, String.append_assoc]

/-- C5: report rendering is total — for every verdict carrying all five
severity counts and every combination of status, findings, optional
storage URL, optional artifacts URL and optional tuning data, the
rendered document contains every fixed section header (the renderer is a
total function, so no combination raises), and an unrecognized status
renders literally as `UNKNOWN STATUS`. -/
theorem c5_report_rendering_total (data : ReportData) (scan_date : String)
    (storage_url artifacts_url : Option String) (tuning : Option TuningData) :
    (∀ h ∈ sectionHeaders, ∃ p q,
      renderReport data scan_date storage_url artifacts_url tuning =
        p ++ (h ++ q)) ∧
    (data.status ∉ (["PASS", "WARN", "FAIL"] : List String) →
      generate_status_badge data.status = "UNKNOWN STATUS") := by
  constructor
  · intro h hm
    apply joinStr_split
    simp only [sectionHeaders, List.mem_cons, List.not_mem_nil, or_false] at hm
    rcases hm with rfl | rfl | rfl | rfl | rfl | rfl | rfl | rfl <;>
      simp [reportFragments]
  · intro hne
    simp only [List.mem_cons, List.not_mem_nil, or_false, not_or] at hne
    obtain ⟨h1, h2, h3⟩ := hne
    unfold generate_status_badge
    rw [if_neg h1, if_neg h2, if_neg h3]

/-- Concrete verdict used by the renderer witnesses: unrecognized
status, duplicated recommendations. -/
def demoReportData : ReportData :=
  { app_name := "app", status := "WEIRD", risk_score := 3,
    severity_counts := ⟨1, 2, 3, 4, 5⟩, total_findings := 3,
    findings := demoFindings, violations := ["v1"],
    recommendations := ["Fix X", "Fix Y", "Fix X"] }

/-- Witness for C5 at a concrete verdict: the unknown status renders as
`UNKNOWN STATUS` and the last section header occurs in the document. -/
theorem c5_report_rendering_total_witness :
    generate_status_badge demoReportData.status = "UNKNOWN STATUS" ∧
    ∃ p q, renderReport demoReportData "2026-10-12 00:00 UTC" none none none =
      p ++ ("### Artifacts" ++ q) := by
  obtain ⟨hhead, hbadge⟩ :=
    c5_report_rendering_total demoReportData "2026-10-12 00:00 UTC" none none none
  exact ⟨hbadge (by decide), hhead "### Artifacts" (by decide)⟩

/-! Ordering properties of Python `dict.fromkeys` deduplication, for
C9. -/

theorem pyDedup_append_singleton [DecidableEq α] (l : List α) (a : α) :
    pyDedup (l ++ [a]) =
      if a ∈ pyDedup l then pyDedup l else pyDedup l ++ [a] := by
  unfold pyDedup
  rw [List.foldl_append]
  rfl

/-- The deduplicated list enumerates elements in strictly increasing
order of first occurrence. -/
theorem pyDedup_pairwise_indexOf [DecidableEq α] (l : List α) :
    (pyDedup l).Pairwise (fun a b => l.indexOf a < l.indexOf b) := by
  induction l using List.reverseRecOn with
  | nil => simp [pyDedup]
  | append_singleton l a ih =>
    rw [pyDedup_append_singleton]
    by_cases hm : a ∈ pyDedup l
    · rw [if_pos hm]
      refine ih.imp_of_mem ?_
      intro x y hx hy hxy
      rw [List.indexOf_append_of_mem ((mem_pyDedup l x).mp hx),
        List.indexOf_append_of_mem ((mem_pyDedup l y).mp hy)]
      exact hxy
    · rw [if_neg hm]
      have ha : a ∉ l := fun h => hm ((mem_pyDedup l a).mpr h)
      refine List.pairwise_append.mpr ⟨?_, List.pairwise_singleton _ _, ?_⟩
      · refine ih.imp_of_mem ?_
        intro x y hx hy hxy
        rw [List.indexOf_append_of_mem ((mem_pyDedup l x).mp hx),
          List.indexOf_append_of_mem ((mem_pyDedup l y).mp hy)]
        exact hxy
      · intro x hx y hy
        rw [List.mem_singleton.mp hy]
        rw [List.indexOf_append_of_mem ((mem_pyDedup l x).mp hx),
          List.indexOf_append_of_not_mem ha]
        calc l.indexOf x < l.length :=
              List.indexOf_lt_length.mpr ((mem_pyDedup l x).mp hx)
          _ ≤ l.length + List.indexOf a [a] := Nat.le_add_right _ _

theorem pyDedup_ne_nil [DecidableEq α] {l : List α} (h : l ≠ []) :
    pyDedup l ≠ [] := by
  obtain ⟨x, hx⟩ := List.exists_mem_of_ne_nil l h
  intro hc
  exact absurd ((mem_pyDedup l x).mpr hx) (by rw [hc]; exact List.not_mem_nil x)

/-- C9: for a verdict carrying explicit (non-empty) recommendations, the
rendered section lists them deduplicated with first occurrences kept in
first-seen order, followed by the three fixed bullets; in particular
`["Fix X", "Fix Y", "Fix X"]` renders as exactly two bullets, `Fix X`
then `Fix Y`. -/
theorem c9_recommendations_dedup (data : ReportData) :
    (pyDedup data.recommendations).Nodup ∧
    (∀ x, x ∈ pyDedup data.recommendations ↔ x ∈ data.recommendations) ∧
    (pyDedup data.recommendations).Pairwise
      (fun a b => data.recommendations.indexOf a <
        data.recommendations.indexOf b) ∧
    (data.recommendations ≠ [] →
      recommendationBullets data =
        (pyDedup data.recommendations).map (fun rec => "- " ++ rec) ++
          fixedBullets) ∧
    pyDedup ["Fix X", "Fix Y", "Fix X"] = ["Fix X", "Fix Y"] ∧
    generate_recommendations data =
      "\n".intercalate (recommendationBullets data) := by
  refine ⟨pyDedup_nodup _, mem_pyDedup _, pyDedup_pairwise_indexOf _,
    ?_, by decide, rfl⟩
  intro hne
  unfold recommendationBullets
  dsimp only
  rw [if_pos (pyDedup_ne_nil hne)]

/-- Witness for C9 at the concrete verdict with recommendations
`["Fix X", "Fix Y", "Fix X"]`: exactly the two deduplicated bullets
followed by the fixed ones. -/
theorem c9_recommendations_dedup_witness :
    recommendationBullets demoReportData =
      (pyDedup ["Fix X", "Fix Y", "Fix X"]).map (fun rec => "- " ++ rec) ++
        fixedBullets ∧
    pyDedup ["Fix X", "Fix Y", "Fix X"] = ["Fix X", "Fix Y"] := by
  obtain ⟨_, _, _, hbul, hfix, _⟩ := c9_recommendations_dedup demoReportData
  exact ⟨hbul (by decide), hfix⟩

end SecurityDast
